import Mathlib

/- Verification development for the bgc geometric kernel: a shallow embedding
   of its tolerance-aware primitives (tolerances, points, vectors, affine
   matrices, lines, planes, circular arcs) over exact real arithmetic,
   followed by theorems about the intersection and classification routines.
   Floating-point numbers are modelled by real numbers; every definition
   mirrors the corresponding Rust item of the crate. -/

namespace Bgc

open scoped Classical

noncomputable section

/-- Error kinds of the kernel (lib.rs, enum BgcError). -/
inductive BgcError where
  | InvalidInput
  | OutOfRange
  | MustBePositive
  | MustBeNoNegative
  | MustBeNonZero
  | Deivergence
  | Empty
  | NotImplemented

/-- Tolerance thresholds (lib.rs, struct Tolerance); the four fields mirror
the accessors equal_point(), equal_vector(), convergence(), calculation(). -/
structure Tolerance where
  equal_point : ℝ
  equal_vector : ℝ
  convergence : ℝ
  calculation : ℝ

/-- Default tolerance (lib.rs, DEFAULT_TOLERANCE_POINT = 1.0e-4,
DEFAULT_TOLERANCE_VECTOR = 1.0e-6, DEFAULT_TOLERANCE_CONVERGENCE = 1.0e-6,
DEFAULT_TOLERANCE_CALCULATION = 1.0e-6). -/
def defaultTol : Tolerance :=
  ⟨1 / 10000, 1 / 1000000, 1 / 1000000, 1 / 1000000⟩

/-- Coordinate triple for positions (point.rs, struct Point). -/
structure Point where
  x : ℝ
  y : ℝ
  z : ℝ

/-- Coordinate triple for directions (vector.rs, struct Vector). -/
structure Vector where
  x : ℝ
  y : ℝ
  z : ℝ

/-- Euclidean norm (vector.rs, Vector::length). -/
def Vector.length (v : Vector) : ℝ :=
  Real.sqrt (v.x * v.x + v.y * v.y + v.z * v.z)

/-- Sum of two vectors (vector.rs, impl Add for Vector). -/
def Vector.add (v w : Vector) : Vector :=
  ⟨v.x + w.x, v.y + w.y, v.z + w.z⟩

/-- Difference of two vectors (vector.rs, impl Sub for Vector). -/
def Vector.sub (v w : Vector) : Vector :=
  ⟨v.x - w.x, v.y - w.y, v.z - w.z⟩

/-- Scalar multiple (vector.rs, impl Mul of f64 for Vector). -/
def Vector.smul (v : Vector) (m : ℝ) : Vector :=
  ⟨v.x * m, v.y * m, v.z * m⟩

/-- Equality within tolerance (vector.rs, Vector::is_equal_to): the length of
the difference is below tol.equal_vector. -/
def Vector.is_equal_to (v w : Vector) (tol : Tolerance) : Prop :=
  (v.sub w).length < tol.equal_vector

/-- Parallelism test (vector.rs, Vector::is_parallel_to). The body of the
source function is literally the constant false, so the embedding is the
constant False; the arguments are kept to mirror the signature. -/
def Vector.is_parallel_to (_v _w : Vector) (_tol : Tolerance) : Prop :=
  False

/-- Normalization (vector.rs, Vector::normal): returns the input unchanged
when its length is below tol.equal_vector, otherwise divides by the length. -/
def Vector.normal (v : Vector) (tol : Tolerance) : Vector :=
  if v.length < tol.equal_vector then v
  else ⟨v.x / v.length, v.y / v.length, v.z / v.length⟩

/-- Dot product (vector.rs, Vector::inner_product). -/
def Vector.inner_product (v w : Vector) : ℝ :=
  v.x * w.x + v.y * w.y + v.z * w.z

/-- Cross product (vector.rs, Vector::outer_product). -/
def Vector.outer_product (v w : Vector) : Vector :=
  ⟨v.y * w.z - v.z * w.y, v.z * w.x - v.x * w.z, v.x * w.y - v.y * w.x⟩

/-- Origin point (point.rs, Point::origin). -/
def Point.origin : Point := ⟨0, 0, 0⟩

/-- Euclidean distance between points (point.rs, Point::distance_to). -/
def Point.distance_to (p q : Point) : ℝ :=
  Real.sqrt ((p.x - q.x) * (p.x - q.x) + (p.y - q.y) * (p.y - q.y) +
    (p.z - q.z) * (p.z - q.z))

/-- Equality within tolerance (point.rs, Point::is_equal_to): distance below
tol.equal_point. -/
def Point.is_equal_to (p q : Point) (tol : Tolerance) : Prop :=
  p.distance_to q < tol.equal_point

/-- Difference of points giving a vector (point.rs, impl Sub for Point). -/
def Point.sub (p q : Point) : Vector :=
  ⟨p.x - q.x, p.y - q.y, p.z - q.z⟩

/-- Translation of a point by a vector (point.rs, impl Add of Vector). -/
def Point.addVec (p : Point) (v : Vector) : Point :=
  ⟨p.x + v.x, p.y + v.y, p.z + v.z⟩

/-- Homogeneous 4x4 matrix, row major (matrix3d.rs, struct Matrix3d); field
mRC is the entry of row R, column C, i.e. matrix[R][C] in the source. -/
structure Matrix3d where
  m00 : ℝ
  m01 : ℝ
  m02 : ℝ
  m03 : ℝ
  m10 : ℝ
  m11 : ℝ
  m12 : ℝ
  m13 : ℝ
  m20 : ℝ
  m21 : ℝ
  m22 : ℝ
  m23 : ℝ
  m30 : ℝ
  m31 : ℝ
  m32 : ℝ
  m33 : ℝ

/-- Matrix product (matrix3d.rs, Matrix3d::multiply_by), with the triple loop
unrolled entrywise. -/
def Matrix3d.multiply_by (a b : Matrix3d) : Matrix3d where
  m00 := a.m00 * b.m00 + a.m01 * b.m10 + a.m02 * b.m20 + a.m03 * b.m30
  m01 := a.m00 * b.m01 + a.m01 * b.m11 + a.m02 * b.m21 + a.m03 * b.m31
  m02 := a.m00 * b.m02 + a.m01 * b.m12 + a.m02 * b.m22 + a.m03 * b.m32
  m03 := a.m00 * b.m03 + a.m01 * b.m13 + a.m02 * b.m23 + a.m03 * b.m33
  m10 := a.m10 * b.m00 + a.m11 * b.m10 + a.m12 * b.m20 + a.m13 * b.m30
  m11 := a.m10 * b.m01 + a.m11 * b.m11 + a.m12 * b.m21 + a.m13 * b.m31
  m12 := a.m10 * b.m02 + a.m11 * b.m12 + a.m12 * b.m22 + a.m13 * b.m32
  m13 := a.m10 * b.m03 + a.m11 * b.m13 + a.m12 * b.m23 + a.m13 * b.m33
  m20 := a.m20 * b.m00 + a.m21 * b.m10 + a.m22 * b.m20 + a.m23 * b.m30
  m21 := a.m20 * b.m01 + a.m21 * b.m11 + a.m22 * b.m21 + a.m23 * b.m31
  m22 := a.m20 * b.m02 + a.m21 * b.m12 + a.m22 * b.m22 + a.m23 * b.m32
  m23 := a.m20 * b.m03 + a.m21 * b.m13 + a.m22 * b.m23 + a.m23 * b.m33
  m30 := a.m30 * b.m00 + a.m31 * b.m10 + a.m32 * b.m20 + a.m33 * b.m30
  m31 := a.m30 * b.m01 + a.m31 * b.m11 + a.m32 * b.m21 + a.m33 * b.m31
  m32 := a.m30 * b.m02 + a.m31 * b.m12 + a.m32 * b.m22 + a.m33 * b.m32
  m33 := a.m30 * b.m03 + a.m31 * b.m13 + a.m32 * b.m23 + a.m33 * b.m33

/-- Translation matrix toward an origin (matrix3d.rs, Matrix3d::to_origin):
identity with column 3 set to the negated origin coordinates. -/
def Matrix3d.to_origin (o : Point) : Matrix3d :=
  ⟨1, 0, 0, -o.x, 0, 1, 0, -o.y, 0, 0, 1, -o.z, 0, 0, 0, 1⟩

/-- Rotation matrix from three axis rows (matrix3d.rs, Matrix3d::rotation_axis). -/
def Matrix3d.rotation_axis (u v w : Vector) : Matrix3d :=
  ⟨u.x, u.y, u.z, 0, v.x, v.y, v.z, 0, w.x, w.y, w.z, 0, 0, 0, 0, 1⟩

/-- Transformation into the local coordinate system (matrix3d.rs,
Matrix3d::transform_to_local): the rotation rows are the normalized u, v and
u x v axes, multiplied by the translation toward the origin. -/
def Matrix3d.transform_to_local (o : Point) (u v : Vector) (tol : Tolerance) : Matrix3d :=
  (Matrix3d.rotation_axis (u.normal tol) (v.normal tol)
    ((u.outer_product v).normal tol)).multiply_by (Matrix3d.to_origin o)

/-- Transformation into the world coordinate system (matrix3d.rs,
Matrix3d::transform_to_world): rotation columns are the normalized axes and
column 3 holds the origin. -/
def Matrix3d.transform_to_world (o : Point) (u v : Vector) (tol : Tolerance) : Matrix3d :=
  let u' := u.normal tol
  let v' := v.normal tol
  let w' := (u.outer_product v).normal tol
  ⟨u'.x, v'.x, w'.x, o.x,
   u'.y, v'.y, w'.y, o.y,
   u'.z, v'.z, w'.z, o.z,
   0, 0, 0, 1⟩

/-- Application of a matrix to a point (point.rs, Point::transform): row-vector
convention, reading column j of the matrix for output coordinate j and adding
the bottom-row entry. -/
def Point.transform (p : Point) (m : Matrix3d) : Point :=
  ⟨p.x * m.m00 + p.y * m.m10 + p.z * m.m20 + m.m30,
   p.x * m.m01 + p.y * m.m11 + p.z * m.m21 + m.m31,
   p.x * m.m02 + p.y * m.m12 + p.z * m.m22 + m.m32⟩

/-- Modelled from the spec: the fallible two-argument Point::transform(mat, tol)
called by arc.rs and the matrix3d.rs tests is missing from src/, which only
defines the infallible single-argument Point::transform. Per the spec it
applies the same full affine row-vector map and documents no failure mode, so
it is the single-argument transform wrapped in success. -/
def Point.transformM (p : Point) (m : Matrix3d) (_tol : Tolerance) :
    Except BgcError Point :=
  .ok (p.transform m)

/-- Implicit-form plane (plane.rs, struct Plane): Ax + By + Cz + D = 0. -/
structure Plane where
  param_a : ℝ
  param_b : ℝ
  param_c : ℝ
  param_d : ℝ

/-- Plane from a point and a normal vector (plane.rs, Plane::from): the vector
is normalized and d is the negated dot product with the point. -/
def Plane.from_point_normal (p : Point) (vec : Vector) (tol : Tolerance) : Plane :=
  let n := vec.normal tol
  ⟨n.x, n.y, n.z, -(n.x * p.x + n.y * p.y + n.z * p.z)⟩

/-- Distance from a point to the plane (plane.rs, Plane::distance_to). -/
def Plane.distance_to (pl : Plane) (p : Point) : ℝ :=
  |p.x * pl.param_a + p.y * pl.param_b + p.z * pl.param_c + pl.param_d| /
    Real.sqrt (pl.param_a ^ 2 + pl.param_b ^ 2 + pl.param_c ^ 2)

/-- Closest point on the plane (plane.rs, Plane::closest_point): projection
along the coefficient vector. -/
def Plane.closest_point (pl : Plane) (p : Point) : Point :=
  let t := -(pl.param_a * p.x + pl.param_b * p.y + pl.param_c * p.z + pl.param_d) /
    (pl.param_a ^ 2 + pl.param_b ^ 2 + pl.param_c ^ 2)
  ⟨p.x + pl.param_a * t, p.y + pl.param_b * t, p.z + pl.param_c * t⟩

/-- Containment test (plane.rs, Plane::contains): distance at most
tol.equal_point. -/
def Plane.contains (pl : Plane) (p : Point) (tol : Tolerance) : Prop :=
  pl.distance_to p ≤ tol.equal_point

/-- Modelled from the spec: Plane::is_on, called by Line::intersect_with_plane
in line.rs but missing from plane.rs; the spec describes the point-on-plane
test as distance within tol.equal_point, identical to Plane::contains. -/
def Plane.is_on (pl : Plane) (p : Point) (tol : Tolerance) : Prop :=
  pl.contains p tol

/-- Normalized coefficient vector (plane.rs, Plane::get_normal_vector). -/
def Plane.get_normal_vector (pl : Plane) (tol : Tolerance) : Vector :=
  (Vector.mk pl.param_a pl.param_b pl.param_c).normal tol

/-- Plane parallelism (plane.rs, Plane::is_parallel_to): delegates to the
vector parallelism test on the two normal vectors. -/
def Plane.is_parallel_to (pl other : Plane) (tol : Tolerance) : Prop :=
  (pl.get_normal_vector tol).is_parallel_to (other.get_normal_vector tol) tol

/-- Coplanarity (plane.rs, Plane::is_coplanar_with): parallel and equal d
within tol.equal_point. -/
def Plane.is_coplanar_with (pl other : Plane) (tol : Tolerance) : Prop :=
  pl.is_parallel_to other tol ∧ |pl.param_d - other.param_d| < tol.equal_point

/-- Finite segment (line.rs, struct Line). -/
structure Line where
  start_point : Point
  end_point : Point

/-- Segment length (line.rs, Line::length). -/
def Line.length (l : Line) : ℝ :=
  l.start_point.distance_to l.end_point

/-- Unit direction (line.rs, Line::direction): the difference of the endpoints
normalized with Tolerance::default(). -/
def Line.direction (l : Line) : Vector :=
  (l.end_point.sub l.start_point).normal defaultTol

/-- Modelled from the spec: the one-tolerance-argument Line::direction(tol)
called by arc.rs and plane.rs tests but missing from line.rs, which defines
the zero-argument version; per the spec it is the unit vector from start to
end, normalized with the given tolerance. -/
def Line.directionW (l : Line) (tol : Tolerance) : Vector :=
  (l.end_point.sub l.start_point).normal tol

/-- Closest point on the segment (line.rs, Line::closest_point): endpoint
shortcuts, scalar projection onto the unit direction, and, when the extends
flag is off, clamping to the nearer endpoint. -/
def Line.closest_point (l : Line) (p0 : Point) (ext : Bool) (tol : Tolerance) : Point :=
  if p0.is_equal_to l.start_point tol then l.start_point
  else if p0.is_equal_to l.end_point tol then l.end_point
  else
    let uvec := l.direction
    let t := (p0.x - l.start_point.x) * uvec.x + (p0.y - l.start_point.y) * uvec.y +
      (p0.z - l.start_point.z) * uvec.z
    let closest : Point := ⟨l.start_point.x + uvec.x * t, l.start_point.y + uvec.y * t,
      l.start_point.z + uvec.z * t⟩
    if ext = false then
      if ((closest.sub l.start_point).normal tol).is_equal_to (uvec.smul (-1)) tol then
        l.start_point
      else if l.length < closest.distance_to l.start_point then l.end_point
      else closest
    else closest

/-- Point-on-segment test (line.rs, Line::is_on): endpoint shortcut, otherwise
the closest point coincides with the query within tolerance. -/
def Line.is_on (l : Line) (p : Point) (ext : Bool) (tol : Tolerance) : Prop :=
  p.is_equal_to l.start_point tol ∨ p.is_equal_to l.end_point tol ∨
    (l.closest_point p ext tol).is_equal_to p tol

/-- Modelled from the spec: Line::contains, called by arc.rs but missing from
line.rs; the spec section 4.5 names the point-on-segment test
"contains/is_on", so it is the same predicate as Line::is_on. -/
def Line.contains (l : Line) (p : Point) (ext : Bool) (tol : Tolerance) : Prop :=
  l.is_on p ext tol

/-- Line parallelism (line.rs, Line::is_parallel): the directions from both
endpoints of this line to their closest points on the other line must agree,
the two distances must agree within tol.equal_point, and the unit directions
must be equal or opposite. -/
def Line.is_parallel (l other : Line) (tol : Tolerance) : Prop :=
  let closest_start := other.closest_point l.start_point true tol
  let closest_end := other.closest_point l.end_point true tol
  let dir_start := (closest_start.sub l.start_point).normal tol
  let dir_end := (closest_end.sub l.end_point).normal tol
  dir_start.is_equal_to dir_end tol ∧
    (|l.start_point.distance_to closest_start - l.end_point.distance_to closest_end| ≤
        tol.equal_point ∧
      (l.direction.is_equal_to other.direction tol ∨
        l.direction.is_equal_to (other.direction.smul (-1)) tol))

/-- Line-plane parallelism (line.rs, Line::is_parallel_with_plane): a
degenerate line is never parallel; otherwise the plane normal and the line
direction have dot product below tol.equal_vector in absolute value. -/
def Line.is_parallel_with_plane (l : Line) (pl : Plane) (tol : Tolerance) : Prop :=
  ¬ l.start_point.is_equal_to l.end_point tol ∧
    |(pl.get_normal_vector tol).inner_product l.direction| < tol.equal_vector

/-- Point at a distance from the start (line.rs, Line::point_at_dist): snaps
to the endpoints within tol.equal_point, fails when the distance is outside
the segment and the extends flag is off. -/
def Line.point_at_dist (l : Line) (distance : ℝ) (ext : Bool) (tol : Tolerance) :
    Except BgcError Point :=
  if |distance| < tol.equal_point then .ok l.start_point
  else if |l.length - distance| < tol.equal_point then .ok l.end_point
  else if ext = false ∧ (distance < 0 ∨ l.length < distance) then .error .InvalidInput
  else .ok (l.start_point.addVec (l.direction.smul distance))

/-- Line-plane intersection (line.rs, Line::intersect_with_plane): endpoint
shortcuts, then the parametric solution of the plane equation; fails
MustBeNonZero when the denominator is near zero and InvalidInput when the
point is off the segment without the extends flag. -/
def Line.intersect_with_plane (l : Line) (pl : Plane) (ext : Bool) (tol : Tolerance) :
    Except BgcError Point :=
  if pl.is_on l.start_point tol then .ok l.start_point
  else if pl.is_on l.end_point tol then .ok l.end_point
  else
    let v := l.start_point.sub l.end_point
    let denominator := pl.param_a * v.x + pl.param_b * v.y + pl.param_c * v.z
    if |denominator| < tol.calculation then .error .MustBeNonZero
    else
      let numerator := pl.param_a * l.start_point.x + pl.param_b * l.start_point.y +
        pl.param_c * l.start_point.z + pl.param_d
      let u0 := numerator / denominator
      let u := if |u0| < tol.calculation then 0 else u0
      let ipoint := l.start_point.addVec ((l.end_point.sub l.start_point).smul u)
      if ¬ l.is_on ipoint ext tol then .error .InvalidInput
      else .ok ipoint

/-- Modelled from the spec: Line::transform(mat, tol), called by arc.rs to map
a line into the arc's local frame but missing from line.rs; a line is carried
by its two endpoints, so both are transformed and no failure occurs. -/
def Line.transformM (l : Line) (m : Matrix3d) (_tol : Tolerance) :
    Except BgcError Line :=
  .ok ⟨l.start_point.transform m, l.end_point.transform m⟩

/-- Line-line intersection (line.rs, Curve impl, Line::intersect_with_line):
endpoint-coincidence shortcuts, parallel failure, then the closest-approach
parameters L1 and L2 along the unit directions; fails InvalidInput when a
candidate point is off its segment without the extends flag or when the two
candidates do not coincide (skew lines). -/
def Line.intersect_with_line (l other : Line) (ext : Bool) (tol : Tolerance) :
    Except BgcError (List Point) :=
  if l.start_point.is_equal_to other.start_point tol ∨
      l.start_point.is_equal_to other.end_point tol then
    .ok [l.start_point]
  else if l.end_point.is_equal_to other.start_point tol ∨
      l.end_point.is_equal_to other.end_point tol then
    .ok [l.end_point]
  else if l.is_parallel other tol then .error .MustBeNonZero
  else
    let dir1 := l.direction
    let dir2 := other.direction
    let q := dir1.inner_product dir2
    let start_to_start := other.start_point.sub l.start_point
    let s1 := dir1.inner_product start_to_start
    let s2 := -(dir2.inner_product start_to_start)
    let l1 := (s2 * q + s1) / (1 - q * q)
    let l2 := (s1 * q + s2) / (1 - q * q)
    let int_p1 := l.start_point.addVec (dir1.smul l1)
    let int_p2 := other.start_point.addVec (dir2.smul l2)
    if ¬ l.is_on int_p1 ext tol ∨ ¬ other.is_on int_p2 ext tol then .error .InvalidInput
    else if int_p1.is_equal_to int_p2 tol then .ok [int_p1]
    else .error .InvalidInput

/-- Quadratic solver (math.rs, quadratic_equation): fails InvalidInput when
the leading coefficient is within tol.calculation of zero, snaps the
discriminant to zero within tol.calculation, fails MustBeNoNegative when it
stays negative, otherwise returns both roots of the quadratic formula. -/
def quadratic_equation (a b c : ℝ) (tol : Tolerance) : Except BgcError (ℝ × ℝ) :=
  if |a| ≤ tol.calculation then .error .InvalidInput
  else
    let disc0 := b * b - 4 * a * c
    let disc := if |disc0| ≤ tol.calculation then 0 else disc0
    if disc < 0 then .error .MustBeNoNegative
    else .ok ((-b + Real.sqrt disc) / (2 * a), (-b - Real.sqrt disc) / (2 * a))

/-- Two-argument arctangent with the quadrant conventions of f64::atan2:
atan2 y x is the angle of the point (x, y), in (-pi, pi]. -/
def atan2 (y x : ℝ) : ℝ :=
  if 0 < x then Real.arctan (y / x)
  else if x < 0 then
    (if 0 ≤ y then Real.arctan (y / x) + Real.pi else Real.arctan (y / x) - Real.pi)
  else if 0 < y then Real.pi / 2
  else if y < 0 then -(Real.pi / 2)
  else 0

/-- Circular arc embedded via a local frame (arc.rs, struct Arc). -/
structure Arc where
  center_point : Point
  x_axis : Vector
  y_axis : Vector
  radius : ℝ
  start_angle : ℝ
  end_angle : ℝ

/-- Angle of a local point (arc.rs, Arc::calc_angle_at_local_point): atan2 of
y and x, normalized into the range zero to two pi. -/
def Arc.calc_angle_at_local_point (p : Point) : ℝ :=
  let angle := atan2 p.y p.x
  if angle < 0 then angle + Real.pi * 2 else angle

/-- Parametric point of the arc (arc.rs, Arc::calc_point_at_param). -/
def Arc.calc_point_at_param (a : Arc) (param : ℝ) : Point :=
  a.center_point.addVec
    (((a.x_axis.smul (Real.cos param)).add (a.y_axis.smul (Real.sin param))).smul a.radius)

/-- Start point of the arc (arc.rs, Arc::start_point). -/
def Arc.start_point (a : Arc) : Point :=
  a.calc_point_at_param a.start_angle

/-- End point of the arc (arc.rs, Arc::end_point). -/
def Arc.end_point (a : Arc) : Point :=
  a.calc_point_at_param a.end_angle

/-- Angular-range test (arc.rs, Arc::is_param_in_range): near either bound
within tol.calculation, or not outside the closed angular interval. -/
def Arc.is_param_in_range (a : Arc) (param : ℝ) (tol : Tolerance) : Prop :=
  |a.start_angle - param| < tol.calculation ∨ |a.end_angle - param| < tol.calculation ∨
    ¬ (param < a.start_angle ∨ a.end_angle < param)

/-- Containing plane of the arc (arc.rs, Arc::containing_plane): through the
center with normal x_axis cross y_axis. -/
def Arc.containing_plane (a : Arc) (tol : Tolerance) : Plane :=
  Plane.from_point_normal a.center_point (a.x_axis.outer_product a.y_axis) tol

/-- Closest point on the arc (arc.rs, Arc::closest_point): transform to the
local frame, flatten z, project radially onto the circle via point_at_dist;
outside the angular range without the extends flag, snap to the endpoint
nearer to the local point, otherwise transform the projection back to world. -/
def Arc.closest_point (a : Arc) (p : Point) (ext : Bool) (tol : Tolerance) :
    Except BgcError Point :=
  match p.transformM (Matrix3d.transform_to_local a.center_point a.x_axis a.y_axis tol) tol with
  | .error e => .error e
  | .ok lp0 =>
    let local_point : Point := ⟨lp0.x, lp0.y, 0⟩
    let line : Line := ⟨Point.origin, local_point⟩
    match line.point_at_dist a.radius true tol with
    | .error e => .error e
    | .ok on_arc =>
      let angle := Arc.calc_angle_at_local_point on_arc
      if ext = false ∧ ¬ a.is_param_in_range angle tol then
        if a.start_point.distance_to local_point < a.end_point.distance_to local_point then
          .ok a.start_point
        else .ok a.end_point
      else
        on_arc.transformM (Matrix3d.transform_to_world a.center_point a.x_axis a.y_axis tol) tol

/-- Point-on-arc test (arc.rs, Arc::contains): endpoint shortcut, otherwise
the successful closest point coincides with the query within tolerance. -/
def Arc.contains (a : Arc) (p : Point) (ext : Bool) (tol : Tolerance) : Prop :=
  a.start_point.is_equal_to p tol ∨ a.end_point.is_equal_to p tol ∨
    (match a.closest_point p ext tol with
     | .ok closest => closest.is_equal_to p tol
     | .error _ => False)

/-- Local circle-line intersection (arc.rs, Arc::intersect_with_line_in_local):
quadratic in the line parameter; each root is kept when its angle lies in the
arc range and, without the extends flag, the point lies on the segment; fails
InvalidInput when the quadratic fails or no root survives. -/
def Arc.intersect_with_line_in_local (a : Arc) (other : Line) (ext : Bool)
    (tol : Tolerance) : Except BgcError (List Point) :=
  let start := other.start_point
  let dir := (other.directionW tol).normal tol
  let qa := dir.x * dir.x + dir.y * dir.y
  let qb := 2 * (start.x * dir.x + start.y * dir.y)
  let qc := start.x * start.x + start.y * start.y - a.radius * a.radius
  match quadratic_equation qa qb qc tol with
  | .error _ => .error .InvalidInput
  | .ok roots =>
    match other.point_at_dist roots.1 true tol with
    | .error e => .error e
    | .ok p1 =>
      match other.point_at_dist roots.2 true tol with
      | .error e => .error e
      | .ok p2 =>
        let keep1 := a.is_param_in_range (Arc.calc_angle_at_local_point p1) tol ∧
          (ext = true ∨ other.contains p1 false tol)
        let keep2 := ¬ p1.is_equal_to p2 tol ∧
          a.is_param_in_range (Arc.calc_angle_at_local_point p2) tol ∧
          (ext = true ∨ other.contains p2 false tol)
        let points := (if keep1 then [p1] else []) ++ (if keep2 then [p2] else [])
        if points = [] then .error .InvalidInput else .ok points

/-- Local circle-circle intersection (arc.rs,
Arc::intersect_with_circle_in_local): InvalidInput for coincident centers,
NotImplemented for tangency, InvalidInput for separate or nested circles,
otherwise the radical-line solution, split on whether the centers share an x
or y coordinate within tolerance. -/
def Arc.intersect_with_circle_in_local (a : Arc) (other_center : Point)
    (other_radius : ℝ) (tol : Tolerance) : Except BgcError (List Point) :=
  if a.center_point.is_equal_to other_center tol then .error .InvalidInput
  else
    let r1 := a.radius
    let r2 := other_radius
    let dist := a.center_point.distance_to other_center
    if |dist - r1 - r2| < tol.equal_point ∨ |r1 - (dist + r2)| < tol.equal_point ∨
        |r2 - (dist + r1)| < tol.equal_point then
      .error .NotImplemented
    else if 0 < dist - r1 - r2 then .error .InvalidInput
    else if |r1 - r2| > tol.equal_point ∧
        ((r1 > r2 ∧ r1 > r2 + dist) ∨ (r2 > r1 ∧ r2 > r1 + dist)) then
      .error .InvalidInput
    else if |a.center_point.x - other_center.x| < tol.equal_point then
      let ca := other_center.x
      let cx := (ca * ca + r1 * r1 - r2 * r2) / (2 * ca)
      let cy := Real.sqrt (r1 * r1 - cx * cx)
      if |cy| < tol.equal_point then .ok [⟨cx, 0, 0⟩]
      else .ok [⟨cx, cy, 0⟩, ⟨cx, -cy, 0⟩]
    else if |a.center_point.y - other_center.y| < tol.equal_point then
      let cb := other_center.y
      let cy := (cb * cb + r1 * r1 - r2 * r2) / (2 * cb)
      let cx := Real.sqrt (r1 * r1 - cy * cy)
      if |cx| < tol.equal_point then .ok [⟨0, cy, 0⟩]
      else .ok [⟨cx, cy, 0⟩, ⟨-cx, cy, 0⟩]
    else
      let ca := other_center.x
      let cb := other_center.y
      let ld := ca * ca + cb * cb + r1 * r1 - r2 * r2
      let la := ca * ca / (cb * cb) + 1
      let lb := -(ca * ld / (cb * cb))
      let lc := ld * ld / (4 * cb * cb) - r1 * r1
      match quadratic_equation la lb lc tol with
      | .error _ => .error .InvalidInput
      | .ok roots =>
        if |roots.1 - roots.2| < tol.calculation then
          .ok [⟨roots.1, (-2 * ca * roots.1 + ld) / (2 * cb), 0⟩]
        else
          .ok [⟨roots.1, (-2 * ca * roots.1 + ld) / (2 * cb), 0⟩,
               ⟨roots.2, (-2 * ca * roots.2 + ld) / (2 * cb), 0⟩]

/-- Arc-line intersection (arc.rs, Curve impl, Arc::intersect_with_line): when
the line is parallel to the containing plane and starts on it, solve in the
local frame and map the points back to world; when it is not parallel, keep
the single line-plane intersection point only if the arc contains it. The
source indexes the line-plane result as a sequence although
Line::intersect_with_plane returns a single point; the embedding uses that
single point. -/
def Arc.intersect_with_line (a : Arc) (other : Line) (ext : Bool) (tol : Tolerance) :
    Except BgcError (List Point) :=
  let local_plane := a.containing_plane tol
  if other.is_parallel_with_plane local_plane tol then
    if local_plane.contains other.start_point tol then
      match other.transformM
          (Matrix3d.transform_to_local a.center_point a.x_axis a.y_axis tol) tol with
      | .error e => .error e
      | .ok local_line =>
        match a.intersect_with_line_in_local local_line ext tol with
        | .error e => .error e
        | .ok local_points =>
          local_points.mapM (fun p =>
            p.transformM (Matrix3d.transform_to_world a.center_point a.x_axis a.y_axis tol) tol)
    else .error .InvalidInput
  else
    match other.intersect_with_plane local_plane ext tol with
    | .error e => .error e
    | .ok intersection =>
      if a.contains intersection ext tol then .ok [intersection]
      else .error .InvalidInput

/-- Arc-arc intersection (arc.rs, Curve impl, Arc::intersect_with_arc),
embedded exactly as written in the source: both plane variables are built
from self's containing plane, the coplanar branch computes the other center
in the local frame but discards it, every path inside the parallel branch
falls through to InvalidInput, and the non-parallel branch returns
NotImplemented. -/
def Arc.intersect_with_arc (a : Arc) (other : Arc) (_ext : Bool) (tol : Tolerance) :
    Except BgcError (List Point) :=
  let local_plane := a.containing_plane tol
  let other_plane := a.containing_plane tol
  if local_plane.is_parallel_to other_plane tol then
    if local_plane.is_coplanar_with other_plane tol then
      match other.center_point.transformM
          (Matrix3d.transform_to_local a.center_point a.x_axis a.y_axis tol) tol with
      | .error e => .error e
      | .ok _ => .error .InvalidInput
    else .error .InvalidInput
  else .error .NotImplemented

end

end Bgc

/- Theorems: helper lemmas about the embedded operations, followed by the
   claim theorems with their witnesses and counterexamples. -/

namespace Bgc

open scoped Classical

theorem sqrt_val {a b : ℝ} (hb : 0 ≤ b) (h : a = b ^ 2) : Real.sqrt a = b := by
  rw [h, Real.sqrt_sq hb]

theorem one_le_sqrt_of {a : ℝ} (h : 1 ≤ a) : 1 ≤ Real.sqrt a := by
  calc (1 : ℝ) = Real.sqrt 1 := Real.sqrt_one.symm
    _ ≤ Real.sqrt a := Real.sqrt_le_sqrt h

theorem not_abs_le {q c : ℝ} (h : c < q) : ¬ (|q| ≤ c) :=
  not_le.mpr (h.trans_le (le_abs_self q))

theorem not_abs_le' {q c : ℝ} (h : c < -q) : ¬ (|q| ≤ c) :=
  not_le.mpr (h.trans_le (neg_le_abs q))

theorem not_abs_lt {q c : ℝ} (h : c ≤ q) : ¬ (|q| < c) :=
  not_lt.mpr (h.trans (le_abs_self q))

theorem not_abs_lt' {q c : ℝ} (h : c ≤ -q) : ¬ (|q| < c) :=
  not_lt.mpr (h.trans (neg_le_abs q))

theorem distance_self (p : Point) : p.distance_to p = 0 := by
  simp [Point.distance_to]

theorem distance_comm (p q : Point) : p.distance_to q = q.distance_to p := by
  unfold Point.distance_to
  ring_nf

theorem is_equal_to_self {tol : Tolerance} (h : 0 < tol.equal_point) (p : Point) :
    p.is_equal_to p tol := by
  unfold Point.is_equal_to
  rw [distance_self]
  exact h

theorem not_pt_eq {p q : Point}
    (h : 1 ≤ (p.x - q.x) * (p.x - q.x) + (p.y - q.y) * (p.y - q.y) +
      (p.z - q.z) * (p.z - q.z)) : ¬ p.is_equal_to q defaultTol := by
  simp only [Point.is_equal_to, Point.distance_to, defaultTol, not_lt]
  exact le_trans (by norm_num) (one_le_sqrt_of h)

theorem not_vec_eq {v w : Vector}
    (h : 1 ≤ (v.x - w.x) * (v.x - w.x) + (v.y - w.y) * (v.y - w.y) +
      (v.z - w.z) * (v.z - w.z)) : ¬ v.is_equal_to w defaultTol := by
  simp only [Vector.is_equal_to, Vector.sub, Vector.length, defaultTol, not_lt]
  exact le_trans (by norm_num) (one_le_sqrt_of h)

theorem h2m : Real.sqrt 2 * Real.sqrt 2 = 2 := Real.mul_self_sqrt (by norm_num)

theorem h41m : Real.sqrt 41 * Real.sqrt 41 = 41 := Real.mul_self_sqrt (by norm_num)

theorem h2pos : (0 : ℝ) < Real.sqrt 2 := Real.sqrt_pos.mpr (by norm_num)

theorem h41pos : (0 : ℝ) < Real.sqrt 41 := Real.sqrt_pos.mpr (by norm_num)

theorem h2sq : Real.sqrt 2 ^ 2 = 2 := Real.sq_sqrt (by norm_num)

theorem h41sq : Real.sqrt 41 ^ 2 = 41 := Real.sq_sqrt (by norm_num)

theorem h72 : Real.sqrt 72 = 6 * Real.sqrt 2 := by
  refine sqrt_val (by positivity) ?_
  rw [mul_pow, h2sq]
  norm_num

theorem h41le : Real.sqrt 41 ≤ 7 := by
  nlinarith [h41m, Real.sqrt_nonneg 41]

theorem h2le : Real.sqrt 2 ≤ 2 := by
  nlinarith [h2m, Real.sqrt_nonneg 2]

theorem defaultTol_ep : defaultTol.equal_point = 1 / 10000 := rfl

theorem defaultTol_ev : defaultTol.equal_vector = 1 / 1000000 := rfl

theorem defaultTol_ca : defaultTol.calculation = 1 / 1000000 := rfl

theorem h2ge1 : (1 : ℝ) ≤ Real.sqrt 2 := one_le_sqrt_of (by norm_num)

theorem h41ge1 : (1 : ℝ) ≤ Real.sqrt 41 := one_le_sqrt_of (by norm_num)

theorem pt_eq_self (p : Point) : p.is_equal_to p defaultTol := by
  simp only [Point.is_equal_to, Point.distance_to, defaultTol]
  norm_num

theorem is_equal_to_comm {p q : Point} {tol : Tolerance} (h : p.is_equal_to q tol) :
    q.is_equal_to p tol := by
  unfold Point.is_equal_to at *
  rwa [distance_comm]

theorem div_congr {a b c d : ℝ} (h1 : a = c) (h2 : b = d) : a / b = c / d := by
  rw [h1, h2]

/-- Helper: the candidate point that the swapped line-line intersection call
computes on the second line equals the second candidate point of the original
call, exactly. -/
theorem ll_swap (a b : Point) (d1 d2 : Vector) :
    b.addVec (d2.smul
      ((-(d1.inner_product (a.sub b)) * (d2.inner_product d1) +
          d2.inner_product (a.sub b)) /
        (1 - d2.inner_product d1 * d2.inner_product d1))) =
    b.addVec (d2.smul
      ((d1.inner_product (b.sub a) * (d1.inner_product d2) +
          -(d2.inner_product (b.sub a))) /
        (1 - d1.inner_product d2 * d1.inner_product d2))) := by
  obtain ⟨ax, ay, az⟩ := a
  obtain ⟨bx, by', bz⟩ := b
  obtain ⟨ux, uy, uz⟩ := d1
  obtain ⟨vx, vy, vz⟩ := d2
  simp only [Point.sub, Vector.inner_product, Vector.smul, Point.addVec]
  have harg : (-(ux * (ax - bx) + uy * (ay - by') + uz * (az - bz)) *
        (vx * ux + vy * uy + vz * uz) +
        (vx * (ax - bx) + vy * (ay - by') + vz * (az - bz))) /
        (1 - (vx * ux + vy * uy + vz * uz) * (vx * ux + vy * uy + vz * uz)) =
      ((ux * (bx - ax) + uy * (by' - ay) + uz * (bz - az)) *
        (ux * vx + uy * vy + uz * vz) +
        -(vx * (bx - ax) + vy * (by' - ay) + vz * (bz - az))) /
        (1 - (ux * vx + uy * vy + uz * vz) * (ux * vx + uy * vy + uz * vz)) :=
    div_congr (by ring) (by ring)
  rw [harg]

theorem except_ite_ok {α : Type} {c1 c2 : Prop} [Decidable c1] [Decidable c2]
    {e1 e2 : BgcError} {v w : α}
    (h : (if c1 then (Except.error e1 : Except BgcError α) else
      if c2 then Except.ok v else Except.error e2) = Except.ok w) :
    ¬ c1 ∧ c2 ∧ v = w := by
  by_cases h1 : c1
  · rw [if_pos h1] at h
    exact absurd h (by simp)
  · rw [if_neg h1] at h
    by_cases h2 : c2
    · rw [if_pos h2] at h
      simp only [Except.ok.injEq] at h
      exact ⟨h1, h2, h⟩
    · rw [if_neg h2] at h
      exact absurd h (by simp)

theorem normal_of_unit {w : Vector} (tol : Tolerance) (h : w.inner_product w = 1) :
    w.normal tol = w := by
  have hl : w.length = 1 := by
    unfold Vector.length
    unfold Vector.inner_product at h
    rw [h, Real.sqrt_one]
  unfold Vector.normal
  rw [hl]
  split_ifs with hcase
  · rfl
  · obtain ⟨a, b, c⟩ := w
    simp

theorem cross_self_inner (u v : Vector) : (u.outer_product v).inner_product u = 0 := by
  obtain ⟨a, b, c⟩ := u
  obtain ⟨d, e, f⟩ := v
  simp only [Vector.outer_product, Vector.inner_product]
  ring

theorem cross_inner_unit {u v : Vector} (hu : u.inner_product u = 1)
    (hv : v.inner_product v = 1) (huv : u.inner_product v = 0) :
    (u.outer_product v).inner_product (u.outer_product v) = 1 := by
  obtain ⟨a, b, c⟩ := u
  obtain ⟨d, e, f⟩ := v
  simp only [Vector.outer_product, Vector.inner_product] at *
  linear_combination (d * d + e * e + f * f) * hu + hv -
    (a * d + b * e + c * f) * huv

/-- Helper: a point transformed to the local frame of orthonormal axes and
back to world returns to itself exactly (the source transforms read neither
translation, so the composition is the rotation times its transpose). -/
theorem transform_local_world (o : Point) (u v : Vector) (tol : Tolerance) (p : Point)
    (hu : u.inner_product u = 1) (hv : v.inner_product v = 1)
    (huv : u.inner_product v = 0) :
    (p.transform (Matrix3d.transform_to_local o u v tol)).transform
      (Matrix3d.transform_to_world o u v tol) = p := by
  have h1 : u.normal tol = u := normal_of_unit tol hu
  have h2 : v.normal tol = v := normal_of_unit tol hv
  have h3 : (u.outer_product v).normal tol = u.outer_product v :=
    normal_of_unit tol (cross_inner_unit hu hv huv)
  obtain ⟨a, b, c⟩ := u
  obtain ⟨d, e, f⟩ := v
  obtain ⟨px, py, pz⟩ := p
  simp only [Vector.inner_product] at hu hv huv
  simp only [Matrix3d.transform_to_local, Matrix3d.transform_to_world, h1, h2, h3,
    Matrix3d.rotation_axis, Matrix3d.to_origin, Matrix3d.multiply_by, Point.transform]
  simp only [Vector.outer_product]
  refine Point.mk.injEq _ _ _ _ _ _ ▸ ⟨?_, ?_, ?_⟩
  · linear_combination px * hu + py * huv
  · linear_combination py * hv + px * huv
  · linear_combination pz * ((d * d + e * e + f * f) * hu + hv -
      (a * d + b * e + c * f) * huv)

/-- Helper: a point transformed to world coordinates and back into the local
frame of orthonormal axes returns to itself exactly. -/
theorem transform_world_local (o : Point) (u v : Vector) (tol : Tolerance) (q : Point)
    (hu : u.inner_product u = 1) (hv : v.inner_product v = 1)
    (huv : u.inner_product v = 0) :
    (q.transform (Matrix3d.transform_to_world o u v tol)).transform
      (Matrix3d.transform_to_local o u v tol) = q := by
  have h1 : u.normal tol = u := normal_of_unit tol hu
  have h2 : v.normal tol = v := normal_of_unit tol hv
  have h3 : (u.outer_product v).normal tol = u.outer_product v :=
    normal_of_unit tol (cross_inner_unit hu hv huv)
  obtain ⟨a, b, c⟩ := u
  obtain ⟨d, e, f⟩ := v
  obtain ⟨qx, qy, qz⟩ := q
  simp only [Vector.inner_product] at hu hv huv
  simp only [Matrix3d.transform_to_local, Matrix3d.transform_to_world, h1, h2, h3,
    Matrix3d.rotation_axis, Matrix3d.to_origin, Matrix3d.multiply_by, Point.transform]
  simp only [Vector.outer_product]
  have hNxx : a * a + d * d + (b * f - c * e) * (b * f - c * e) = 1 := by
    linear_combination (d * d + e * e + f * f - d * d) * hu + (1 - a * a) * hv +
      (2 * a * d - (a * d + b * e + c * f)) * huv
  have hNyy : b * b + e * e + (c * d - a * f) * (c * d - a * f) = 1 := by
    linear_combination (d * d + e * e + f * f - e * e) * hu + (1 - b * b) * hv +
      (2 * b * e - (a * d + b * e + c * f)) * huv
  have hNzz : c * c + f * f + (a * e - b * d) * (a * e - b * d) = 1 := by
    linear_combination (d * d + e * e + f * f - f * f) * hu + (1 - c * c) * hv +
      (2 * c * f - (a * d + b * e + c * f)) * huv
  have hNxy : a * b + d * e + (b * f - c * e) * (c * d - a * f) = 0 := by
    linear_combination (-(d * e)) * hu + (-(a * b)) * hv + (a * e + d * b) * huv
  have hNxz : a * c + d * f + (b * f - c * e) * (a * e - b * d) = 0 := by
    linear_combination (-(d * f)) * hu + (-(a * c)) * hv + (a * f + d * c) * huv
  have hNyz : b * c + e * f + (c * d - a * f) * (a * e - b * d) = 0 := by
    linear_combination (-(e * f)) * hu + (-(b * c)) * hv + (b * f + e * c) * huv
  refine Point.mk.injEq _ _ _ _ _ _ ▸ ⟨?_, ?_, ?_⟩
  · linear_combination qx * hNxx + qy * hNxy + qz * hNxz
  · linear_combination qx * hNxy + qy * hNyy + qz * hNyz
  · linear_combination qx * hNxz + qy * hNyz + qz * hNzz

theorem c4d1 : Line.direction ⟨⟨1, 1, 0⟩, ⟨7, 7, 0⟩⟩ =
    ⟨Real.sqrt 2 / 2, Real.sqrt 2 / 2, 0⟩ := by
  norm_num [Line.direction, Point.sub, Vector.normal, Vector.length]
  rw [h72]
  rw [if_neg (by rw [defaultTol_ev]; nlinarith [h2ge1] :
    ¬ (6 * Real.sqrt 2 < defaultTol.equal_vector))]
  rw [Vector.mk.injEq]
  refine ⟨?_, ?_, by norm_num⟩
  · rw [div_eq_div_iff (by positivity) (by norm_num)]
    linear_combination (-6 : ℝ) * h2m
  · rw [div_eq_div_iff (by positivity) (by norm_num)]
    linear_combination (-6 : ℝ) * h2m

theorem c4d2 : Line.direction ⟨⟨2, 6, 0⟩, ⟨6, 1, 0⟩⟩ =
    ⟨4 / Real.sqrt 41, -(5 / Real.sqrt 41), 0⟩ := by
  norm_num [Line.direction, Point.sub, Vector.normal, Vector.length]
  rw [if_neg (by rw [defaultTol_ev]; nlinarith [h41ge1] :
    ¬ (Real.sqrt 41 < defaultTol.equal_vector))]
  norm_num [neg_div]

theorem c4cpA : Line.closest_point ⟨⟨2, 6, 0⟩, ⟨6, 1, 0⟩⟩ ⟨1, 1, 0⟩ true defaultTol =
    ⟨166 / 41, 141 / 41, 0⟩ := by
  simp only [Line.closest_point]
  rw [if_neg (not_pt_eq (by norm_num)), if_neg (not_pt_eq (by norm_num))]
  rw [c4d2]
  norm_num
  constructor
  · field_simp
    ring_nf
  · field_simp
    ring_nf

theorem c4cpB : Line.closest_point ⟨⟨2, 6, 0⟩, ⟨6, 1, 0⟩⟩ ⟨7, 7, 0⟩ true defaultTol =
    ⟨142 / 41, 171 / 41, 0⟩ := by
  simp only [Line.closest_point]
  rw [if_neg (not_pt_eq (by norm_num)), if_neg (not_pt_eq (by norm_num))]
  rw [c4d2]
  norm_num
  constructor
  · field_simp
    ring_nf
  · field_simp
    ring_nf

theorem c4nvA : Vector.normal ⟨125 / 41, 100 / 41, 0⟩ defaultTol =
    ⟨5 / Real.sqrt 41, 4 / Real.sqrt 41, 0⟩ := by
  have hL : Real.sqrt (125 / 41 * (125 / 41) + 100 / 41 * (100 / 41) + 0 * 0) =
      25 / Real.sqrt 41 := by
    refine sqrt_val (by positivity) ?_
    rw [div_pow, h41sq]
    norm_num
  simp only [Vector.normal, Vector.length, hL]
  have hge : ¬ (25 / Real.sqrt 41 < defaultTol.equal_vector) := by
    rw [defaultTol_ev]
    intro hcon
    rw [div_lt_iff₀ h41pos] at hcon
    nlinarith [h41le]
  rw [if_neg hge]
  rw [Vector.mk.injEq]
  refine ⟨?_, ?_, by norm_num⟩
  · field_simp
    ring_nf
    linear_combination (125 : ℝ) * h41sq
  · field_simp
    ring_nf
    linear_combination (100 : ℝ) * h41sq

theorem c4nvB : Vector.normal ⟨-(145 / 41), -(116 / 41), 0⟩ defaultTol =
    ⟨-(5 / Real.sqrt 41), -(4 / Real.sqrt 41), 0⟩ := by
  have hL : Real.sqrt (-(145 / 41) * -(145 / 41) + -(116 / 41) * -(116 / 41) + 0 * 0) =
      29 / Real.sqrt 41 := by
    refine sqrt_val (by positivity) ?_
    rw [div_pow, h41sq]
    norm_num
  simp only [Vector.normal, Vector.length, hL]
  have hge : ¬ (29 / Real.sqrt 41 < defaultTol.equal_vector) := by
    rw [defaultTol_ev]
    intro hcon
    rw [div_lt_iff₀ h41pos] at hcon
    nlinarith [h41le]
  rw [if_neg hge]
  rw [Vector.mk.injEq]
  refine ⟨?_, ?_, by norm_num⟩
  · field_simp
    ring_nf
    linear_combination (145 : ℝ) * h41sq
  · field_simp
    ring_nf
    linear_combination (116 : ℝ) * h41sq

theorem c4np : ¬ Line.is_parallel ⟨⟨1, 1, 0⟩, ⟨7, 7, 0⟩⟩ ⟨⟨2, 6, 0⟩, ⟨6, 1, 0⟩⟩
    defaultTol := by
  intro hpar
  simp only [Line.is_parallel] at hpar
  rw [c4cpA, c4cpB] at hpar
  obtain ⟨h1, -⟩ := hpar
  norm_num [Point.sub] at h1
  rw [c4nvA, c4nvB] at h1
  refine not_vec_eq ?_ h1
  have key : (5 / Real.sqrt 41 - -(5 / Real.sqrt 41)) * (5 / Real.sqrt 41 - -(5 / Real.sqrt 41)) +
      (4 / Real.sqrt 41 - -(4 / Real.sqrt 41)) * (4 / Real.sqrt 41 - -(4 / Real.sqrt 41)) +
      ((0 : ℝ) - 0) * (0 - 0) = 4 := by
    field_simp
    ring_nf
  rw [key]
  norm_num

theorem intersect_with_line_eval (l other : Line) (ext : Bool) (tol : Tolerance)
    (hs1 : ¬ l.start_point.is_equal_to other.start_point tol)
    (hs2 : ¬ l.start_point.is_equal_to other.end_point tol)
    (he1 : ¬ l.end_point.is_equal_to other.start_point tol)
    (he2 : ¬ l.end_point.is_equal_to other.end_point tol)
    (hpar : ¬ l.is_parallel other tol)
    (p1 p2 : Point)
    (hp1 : l.start_point.addVec (l.direction.smul
      ((-(other.direction.inner_product (other.start_point.sub l.start_point)) *
          l.direction.inner_product other.direction +
        l.direction.inner_product (other.start_point.sub l.start_point)) /
        (1 - l.direction.inner_product other.direction *
          l.direction.inner_product other.direction))) = p1)
    (hp2 : other.start_point.addVec (other.direction.smul
      ((l.direction.inner_product (other.start_point.sub l.start_point) *
          l.direction.inner_product other.direction +
        -(other.direction.inner_product (other.start_point.sub l.start_point))) /
        (1 - l.direction.inner_product other.direction *
          l.direction.inner_product other.direction))) = p2)
    (hon1 : l.is_on p1 ext tol) (hon2 : other.is_on p2 ext tol)
    (heq : p1.is_equal_to p2 tol) :
    l.intersect_with_line other ext tol = .ok [p1] := by
  simp only [Line.intersect_with_line]
  rw [if_neg (not_or_intro hs1 hs2), if_neg (not_or_intro he1 he2), if_neg hpar]
  rw [hp1, hp2]
  rw [if_neg (not_or_intro (not_not_intro hon1) (not_not_intro hon2))]
  rw [if_pos heq]

theorem closest_point_eval_false (l : Line) (p0 : Point) (tol : Tolerance)
    (h1 : ¬ p0.is_equal_to l.start_point tol) (h2 : ¬ p0.is_equal_to l.end_point tol)
    (c : Point)
    (hc : (⟨l.start_point.x + l.direction.x *
        ((p0.x - l.start_point.x) * l.direction.x + (p0.y - l.start_point.y) * l.direction.y +
          (p0.z - l.start_point.z) * l.direction.z),
      l.start_point.y + l.direction.y *
        ((p0.x - l.start_point.x) * l.direction.x + (p0.y - l.start_point.y) * l.direction.y +
          (p0.z - l.start_point.z) * l.direction.z),
      l.start_point.z + l.direction.z *
        ((p0.x - l.start_point.x) * l.direction.x + (p0.y - l.start_point.y) * l.direction.y +
          (p0.z - l.start_point.z) * l.direction.z)⟩ : Point) = c)
    (hnc : ¬ ((c.sub l.start_point).normal tol).is_equal_to (l.direction.smul (-1)) tol)
    (hlen : ¬ l.length < c.distance_to l.start_point) :
    l.closest_point p0 false tol = c := by
  simp only [Line.closest_point]
  rw [if_neg h1, if_neg h2, hc]
  rw [if_pos trivial]
  rw [if_neg hnc, if_neg hlen]

theorem c4nvC : Vector.normal ⟨25 / 9, 25 / 9, 0⟩ defaultTol =
    ⟨Real.sqrt 2 / 2, Real.sqrt 2 / 2, 0⟩ := by
  have hL : Real.sqrt (25 / 9 * (25 / 9) + 25 / 9 * (25 / 9) + 0 * 0) =
      25 * Real.sqrt 2 / 9 := by
    refine sqrt_val (by positivity) ?_
    rw [div_pow, mul_pow, h2sq]
    norm_num
  simp only [Vector.normal, Vector.length, hL]
  have hge : ¬ (25 * Real.sqrt 2 / 9 < defaultTol.equal_vector) := by
    rw [defaultTol_ev]
    intro hcon
    rw [div_lt_iff₀ (by norm_num)] at hcon
    nlinarith [h2ge1]
  rw [if_neg hge]
  rw [Vector.mk.injEq]
  refine ⟨?_, ?_, by norm_num⟩
  · rw [div_eq_div_iff (by positivity) (by norm_num)]
    linear_combination (-(25 / 9) : ℝ) * h2sq
  · rw [div_eq_div_iff (by positivity) (by norm_num)]
    linear_combination (-(25 / 9) : ℝ) * h2sq

theorem c4nvD : Vector.normal ⟨16 / 9, -(20 / 9), 0⟩ defaultTol =
    ⟨4 / Real.sqrt 41, -(5 / Real.sqrt 41), 0⟩ := by
  have hL : Real.sqrt (16 / 9 * (16 / 9) + -(20 / 9) * -(20 / 9) + 0 * 0) =
      4 * Real.sqrt 41 / 9 := by
    refine sqrt_val (by positivity) ?_
    rw [div_pow, mul_pow, h41sq]
    norm_num
  simp only [Vector.normal, Vector.length, hL]
  have hge : ¬ (4 * Real.sqrt 41 / 9 < defaultTol.equal_vector) := by
    rw [defaultTol_ev]
    intro hcon
    rw [div_lt_iff₀ (by norm_num)] at hcon
    nlinarith [h41ge1]
  rw [if_neg hge]
  rw [Vector.mk.injEq]
  refine ⟨?_, ?_, by norm_num⟩
  · rw [div_eq_div_iff (by positivity) (by positivity)]
    ring
  · rw [show -(5 / Real.sqrt 41) = (-5) / Real.sqrt 41 from (neg_div _ _).symm]
    rw [div_eq_div_iff (by positivity) (by positivity)]
    ring

theorem c4len1 : Line.length ⟨⟨1, 1, 0⟩, ⟨7, 7, 0⟩⟩ = 6 * Real.sqrt 2 := by
  norm_num [Line.length, Point.distance_to]
  exact h72

theorem c4len2 : Line.length ⟨⟨2, 6, 0⟩, ⟨6, 1, 0⟩⟩ = Real.sqrt 41 := by
  norm_num [Line.length, Point.distance_to]

theorem c4dist1 : Point.distance_to ⟨34 / 9, 34 / 9, 0⟩ ⟨1, 1, 0⟩ = 25 * Real.sqrt 2 / 9 := by
  norm_num [Point.distance_to]
  rw [show (1250 : ℝ) = 25 ^ 2 * 2 by norm_num, show (81 : ℝ) = 9 ^ 2 by norm_num]
  rw [Real.sqrt_mul (by positivity), Real.sqrt_sq (by norm_num), Real.sqrt_sq (by norm_num)]

theorem c4dist2 : Point.distance_to ⟨34 / 9, 34 / 9, 0⟩ ⟨2, 6, 0⟩ = 4 * Real.sqrt 41 / 9 := by
  norm_num [Point.distance_to]
  rw [show (656 : ℝ) = 4 ^ 2 * 41 by norm_num, show (81 : ℝ) = 9 ^ 2 by norm_num]
  rw [Real.sqrt_mul (by positivity), Real.sqrt_sq (by norm_num), Real.sqrt_sq (by norm_num)]

theorem c4cpC : Line.closest_point ⟨⟨1, 1, 0⟩, ⟨7, 7, 0⟩⟩ ⟨34 / 9, 34 / 9, 0⟩ false
    defaultTol = ⟨34 / 9, 34 / 9, 0⟩ := by
  refine closest_point_eval_false _ _ _ (not_pt_eq (by norm_num)) (not_pt_eq (by norm_num))
    _ ?_ ?_ ?_
  · rw [c4d1]
    norm_num
    field_simp
    ring_nf
    rw [h2sq]
    norm_num
  · norm_num [Point.sub]
    rw [c4nvC, c4d1]
    norm_num [Vector.smul]
    intro hcon
    refine not_vec_eq ?_ hcon
    norm_num
  · rw [c4len1, c4dist1]
    intro hcon
    nlinarith [h2pos]

theorem c4cpD : Line.closest_point ⟨⟨2, 6, 0⟩, ⟨6, 1, 0⟩⟩ ⟨34 / 9, 34 / 9, 0⟩ false
    defaultTol = ⟨34 / 9, 34 / 9, 0⟩ := by
  refine closest_point_eval_false _ _ _ (not_pt_eq (by norm_num)) (not_pt_eq (by norm_num))
    _ ?_ ?_ ?_
  · rw [c4d2]
    norm_num
    constructor
    · field_simp
      ring_nf
      rw [h41sq]
      norm_num
    · field_simp
      ring_nf
      rw [h41sq]
      norm_num
  · norm_num [Point.sub]
    rw [c4nvD, c4d2]
    norm_num [Vector.smul]
    intro hcon
    refine not_vec_eq ?_ hcon
    norm_num
    have h4 : (4 / Real.sqrt 41 + 4 / Real.sqrt 41) * (4 / Real.sqrt 41 + 4 / Real.sqrt 41) +
        (-(5 / Real.sqrt 41) - 5 / Real.sqrt 41) * (-(5 / Real.sqrt 41) - 5 / Real.sqrt 41) =
        4 := by
      field_simp
      ring_nf
      rw [h41sq]
      norm_num
    rw [h4]
    norm_num
  · rw [c4len2, c4dist2]
    intro hcon
    nlinarith [h41pos]

theorem c4on1 : Line.is_on ⟨⟨1, 1, 0⟩, ⟨7, 7, 0⟩⟩ ⟨34 / 9, 34 / 9, 0⟩ false defaultTol := by
  right; right
  rw [c4cpC]
  exact pt_eq_self _

theorem c4on2 : Line.is_on ⟨⟨2, 6, 0⟩, ⟨6, 1, 0⟩⟩ ⟨34 / 9, 34 / 9, 0⟩ false defaultTol := by
  right; right
  rw [c4cpD]
  exact pt_eq_self _

theorem c4ok : Line.intersect_with_line ⟨⟨1, 1, 0⟩, ⟨7, 7, 0⟩⟩ ⟨⟨2, 6, 0⟩, ⟨6, 1, 0⟩⟩ false
    defaultTol = .ok [⟨34 / 9, 34 / 9, 0⟩] := by
  refine intersect_with_line_eval _ _ _ _ (not_pt_eq (by norm_num)) (not_pt_eq (by norm_num))
    (not_pt_eq (by norm_num)) (not_pt_eq (by norm_num)) c4np ⟨34 / 9, 34 / 9, 0⟩
    ⟨34 / 9, 34 / 9, 0⟩ ?_ ?_ c4on1 c4on2 (pt_eq_self _)
  · rw [c4d1, c4d2]
    norm_num [Point.sub, Vector.inner_product, Vector.smul, Point.addVec]
    have hq : Real.sqrt 2 / 2 * (4 / Real.sqrt 41) + -(Real.sqrt 2 / 2 * (5 / Real.sqrt 41)) =
        -(Real.sqrt 2 / (2 * Real.sqrt 41)) := by
      field_simp
      ring
    rw [hq]
    have hd : (1 : ℝ) - -(Real.sqrt 2 / (2 * Real.sqrt 41)) *
        -(Real.sqrt 2 / (2 * Real.sqrt 41)) = 81 / 82 := by
      rw [neg_mul_neg, div_mul_div_comm, h2m]
      rw [show (2 * Real.sqrt 41) * (2 * Real.sqrt 41) = 164 from by
        linear_combination (4 : ℝ) * h41m]
      norm_num
    rw [hd]
    field_simp
    ring_nf
    rw [h41sq, h2sq]
    norm_num
  · rw [c4d1, c4d2]
    norm_num [Point.sub, Vector.inner_product, Vector.smul, Point.addVec]
    have hq : Real.sqrt 2 / 2 * (4 / Real.sqrt 41) + -(Real.sqrt 2 / 2 * (5 / Real.sqrt 41)) =
        -(Real.sqrt 2 / (2 * Real.sqrt 41)) := by
      field_simp
      ring
    rw [hq]
    have hd : (1 : ℝ) - -(Real.sqrt 2 / (2 * Real.sqrt 41)) *
        -(Real.sqrt 2 / (2 * Real.sqrt 41)) = 81 / 82 := by
      rw [neg_mul_neg, div_mul_div_comm, h2m]
      rw [show (2 * Real.sqrt 41) * (2 * Real.sqrt 41) = 164 from by
        linear_combination (4 : ℝ) * h41m]
      norm_num
    rw [hd]
    have hcube : Real.sqrt 41 ^ 3 = 41 * Real.sqrt 41 := by
      rw [pow_succ, h41sq]
    constructor
    · field_simp
      ring_nf
      rw [h2sq, hcube]
      ring_nf
    · field_simp
      ring_nf
      rw [h2sq, hcube]
      ring_nf

theorem d1 : Line.direction ⟨⟨0, 0, 0⟩, ⟨2, 0, 0⟩⟩ = ⟨1, 0, 0⟩ := by
  norm_num [Line.direction, Point.sub, Vector.normal, Vector.length, defaultTol]
  rw [show Real.sqrt 4 = 2 from sqrt_val (by norm_num) (by norm_num)]
  rw [if_neg (by norm_num : ¬ ((2 : ℝ) < 1 / 1000000))]
  norm_num

theorem d2 : Line.direction ⟨⟨1, -1, 0⟩, ⟨1, 1, 0⟩⟩ = ⟨0, 1, 0⟩ := by
  norm_num [Line.direction, Point.sub, Vector.normal, Vector.length, defaultTol]
  rw [show Real.sqrt 4 = 2 from sqrt_val (by norm_num) (by norm_num)]
  rw [if_neg (by norm_num : ¬ ((2 : ℝ) < 1 / 1000000))]
  norm_num

theorem cp1 : Line.closest_point ⟨⟨1, -1, 0⟩, ⟨1, 1, 0⟩⟩ ⟨0, 0, 0⟩ true defaultTol =
    ⟨1, 0, 0⟩ := by
  simp only [Line.closest_point]
  rw [if_neg (not_pt_eq (by norm_num)), if_neg (not_pt_eq (by norm_num))]
  rw [d2]
  norm_num

theorem cp2 : Line.closest_point ⟨⟨1, -1, 0⟩, ⟨1, 1, 0⟩⟩ ⟨2, 0, 0⟩ true defaultTol =
    ⟨1, 0, 0⟩ := by
  simp only [Line.closest_point]
  rw [if_neg (not_pt_eq (by norm_num)), if_neg (not_pt_eq (by norm_num))]
  rw [d2]
  norm_num

theorem nv1 : Vector.normal ⟨1, 0, 0⟩ defaultTol = ⟨1, 0, 0⟩ := by
  norm_num [Vector.normal, Vector.length, defaultTol]

theorem nv2 : Vector.normal ⟨-1, 0, 0⟩ defaultTol = ⟨-1, 0, 0⟩ := by
  norm_num [Vector.normal, Vector.length, defaultTol]

theorem np12 : ¬ Line.is_parallel ⟨⟨0, 0, 0⟩, ⟨2, 0, 0⟩⟩ ⟨⟨1, -1, 0⟩, ⟨1, 1, 0⟩⟩
    defaultTol := by
  intro hpar
  simp only [Line.is_parallel] at hpar
  rw [cp1, cp2] at hpar
  obtain ⟨h1, -⟩ := hpar
  norm_num [Point.sub] at h1
  rw [nv1, nv2] at h1
  exact not_vec_eq (by norm_num) h1

theorem cp3 : Line.closest_point ⟨⟨0, 0, 0⟩, ⟨2, 0, 0⟩⟩ ⟨1, 0, 0⟩ false defaultTol =
    ⟨1, 0, 0⟩ := by
  simp only [Line.closest_point]
  rw [if_neg (not_pt_eq (by norm_num)), if_neg (not_pt_eq (by norm_num))]
  rw [d1]
  norm_num [Point.sub, Vector.smul, Vector.normal, Vector.length, Line.length,
    Point.distance_to, defaultTol_ev]
  rw [if_neg (not_vec_eq (by norm_num))]
  rw [show Real.sqrt 4 = 2 from sqrt_val (by norm_num) (by norm_num)]
  rw [if_neg (by norm_num : ¬ ((2 : ℝ) < 1))]

theorem cp4 : Line.closest_point ⟨⟨1, -1, 0⟩, ⟨1, 1, 0⟩⟩ ⟨1, 0, 0⟩ false defaultTol =
    ⟨1, 0, 0⟩ := by
  simp only [Line.closest_point]
  rw [if_neg (not_pt_eq (by norm_num)), if_neg (not_pt_eq (by norm_num))]
  rw [d2]
  norm_num [Point.sub, Vector.smul, Vector.normal, Vector.length, Line.length,
    Point.distance_to, defaultTol_ev]
  rw [if_neg (not_vec_eq (by norm_num))]
  rw [show Real.sqrt 4 = 2 from sqrt_val (by norm_num) (by norm_num)]
  rw [if_neg (by norm_num : ¬ ((2 : ℝ) < 1))]

theorem on1 : Line.is_on ⟨⟨0, 0, 0⟩, ⟨2, 0, 0⟩⟩ ⟨1, 0, 0⟩ false defaultTol := by
  refine Or.inr (Or.inr ?_)
  rw [cp3]
  exact pt_eq_self _

theorem on2 : Line.is_on ⟨⟨1, -1, 0⟩, ⟨1, 1, 0⟩⟩ ⟨1, 0, 0⟩ false defaultTol := by
  refine Or.inr (Or.inr ?_)
  rw [cp4]
  exact pt_eq_self _

theorem witI1 : Line.intersect_with_line ⟨⟨0, 0, 0⟩, ⟨2, 0, 0⟩⟩ ⟨⟨1, -1, 0⟩, ⟨1, 1, 0⟩⟩
    false defaultTol = .ok [⟨1, 0, 0⟩] := by
  simp only [Line.intersect_with_line]
  rw [if_neg (not_or_intro (not_pt_eq (by norm_num)) (not_pt_eq (by norm_num)))]
  rw [if_neg (not_or_intro (not_pt_eq (by norm_num)) (not_pt_eq (by norm_num)))]
  rw [if_neg np12]
  rw [d1, d2]
  norm_num [Vector.inner_product, Point.sub, Point.addVec, Vector.smul]
  rw [if_neg (not_or_intro (not_not_intro on1) (not_not_intro on2))]
  rw [if_pos (pt_eq_self _)]

theorem cp5 : Line.closest_point ⟨⟨0, 0, 0⟩, ⟨2, 0, 0⟩⟩ ⟨1, -1, 0⟩ true defaultTol =
    ⟨1, 0, 0⟩ := by
  simp only [Line.closest_point]
  rw [if_neg (not_pt_eq (by norm_num)), if_neg (not_pt_eq (by norm_num))]
  rw [d1]
  norm_num

theorem cp6 : Line.closest_point ⟨⟨0, 0, 0⟩, ⟨2, 0, 0⟩⟩ ⟨1, 1, 0⟩ true defaultTol =
    ⟨1, 0, 0⟩ := by
  simp only [Line.closest_point]
  rw [if_neg (not_pt_eq (by norm_num)), if_neg (not_pt_eq (by norm_num))]
  rw [d1]
  norm_num

theorem np21 : ¬ Line.is_parallel ⟨⟨1, -1, 0⟩, ⟨1, 1, 0⟩⟩ ⟨⟨0, 0, 0⟩, ⟨2, 0, 0⟩⟩
    defaultTol := by
  intro hpar
  simp only [Line.is_parallel] at hpar
  rw [cp5, cp6] at hpar
  obtain ⟨h1, -⟩ := hpar
  norm_num [Point.sub, Vector.normal, Vector.length] at h1
  exact not_vec_eq (by norm_num) h1

theorem witI2 : Line.intersect_with_line ⟨⟨1, -1, 0⟩, ⟨1, 1, 0⟩⟩ ⟨⟨0, 0, 0⟩, ⟨2, 0, 0⟩⟩
    false defaultTol = .ok [⟨1, 0, 0⟩] := by
  simp only [Line.intersect_with_line]
  rw [if_neg (not_or_intro (not_pt_eq (by norm_num)) (not_pt_eq (by norm_num)))]
  rw [if_neg (not_or_intro (not_pt_eq (by norm_num)) (not_pt_eq (by norm_num)))]
  rw [if_neg np21]
  rw [d1, d2]
  norm_num [Vector.inner_product, Point.sub, Point.addVec, Vector.smul]
  rw [if_neg (not_or_intro (not_not_intro on2) (not_not_intro on1))]
  rw [if_pos (pt_eq_self _)]

theorem nrm_x : Vector.normal ⟨1, 0, 0⟩ defaultTol = ⟨1, 0, 0⟩ := by
  norm_num [Vector.normal, Vector.length, defaultTol_ev]

theorem nrm_y : Vector.normal ⟨0, 1, 0⟩ defaultTol = ⟨0, 1, 0⟩ := by
  norm_num [Vector.normal, Vector.length, defaultTol_ev]

theorem nrm_z : Vector.normal ⟨0, 0, 1⟩ defaultTol = ⟨0, 0, 1⟩ := by
  norm_num [Vector.normal, Vector.length, defaultTol_ev]

theorem outer_xy : Vector.outer_product ⟨1, 0, 0⟩ ⟨0, 1, 0⟩ = ⟨0, 0, 1⟩ := by
  norm_num [Vector.outer_product]

theorem cplane8 : Arc.containing_plane ⟨Point.origin, ⟨1, 0, 0⟩, ⟨0, 1, 0⟩, 5, 0, Real.pi⟩
    defaultTol = ⟨0, 0, 1, 0⟩ := by
  simp only [Arc.containing_plane, Plane.from_point_normal, outer_xy, nrm_z, Point.origin]
  norm_num

theorem sqrt400 : Real.sqrt 400 = 20 := sqrt_val (by norm_num) (by norm_num)

theorem sqrt64 : Real.sqrt 64 = 8 := sqrt_val (by norm_num) (by norm_num)

theorem dir8a : Line.direction ⟨⟨-10, 3, 0⟩, ⟨10, 3, 0⟩⟩ = ⟨1, 0, 0⟩ := by
  norm_num [Line.direction, Point.sub, Vector.normal, Vector.length, sqrt400, defaultTol_ev]

theorem dir8b : Line.direction ⟨⟨-10, -3, 0⟩, ⟨10, -3, 0⟩⟩ = ⟨1, 0, 0⟩ := by
  norm_num [Line.direction, Point.sub, Vector.normal, Vector.length, sqrt400, defaultTol_ev]

theorem dirW8a : Line.directionW ⟨⟨-10, 3, 0⟩, ⟨10, 3, 0⟩⟩ defaultTol = ⟨1, 0, 0⟩ := by
  norm_num [Line.directionW, Point.sub, Vector.normal, Vector.length, sqrt400, defaultTol_ev]

theorem dirW8b : Line.directionW ⟨⟨-10, -3, 0⟩, ⟨10, -3, 0⟩⟩ defaultTol = ⟨1, 0, 0⟩ := by
  norm_num [Line.directionW, Point.sub, Vector.normal, Vector.length, sqrt400, defaultTol_ev]

theorem para8a : Line.is_parallel_with_plane ⟨⟨-10, 3, 0⟩, ⟨10, 3, 0⟩⟩ ⟨0, 0, 1, 0⟩
    defaultTol := by
  constructor
  · exact not_pt_eq (by norm_num)
  · have hn : Plane.get_normal_vector ⟨0, 0, 1, 0⟩ defaultTol = ⟨0, 0, 1⟩ := by
      simp only [Plane.get_normal_vector]
      exact nrm_z
    rw [hn, dir8a]
    norm_num [Vector.inner_product, defaultTol_ev]

theorem para8b : Line.is_parallel_with_plane ⟨⟨-10, -3, 0⟩, ⟨10, -3, 0⟩⟩ ⟨0, 0, 1, 0⟩
    defaultTol := by
  constructor
  · exact not_pt_eq (by norm_num)
  · have hn : Plane.get_normal_vector ⟨0, 0, 1, 0⟩ defaultTol = ⟨0, 0, 1⟩ := by
      simp only [Plane.get_normal_vector]
      exact nrm_z
    rw [hn, dir8b]
    norm_num [Vector.inner_product, defaultTol_ev]

theorem cont8a : Plane.contains ⟨0, 0, 1, 0⟩ ⟨-10, 3, 0⟩ defaultTol := by
  norm_num [Plane.contains, Plane.distance_to, defaultTol_ep]

theorem cont8b : Plane.contains ⟨0, 0, 1, 0⟩ ⟨-10, -3, 0⟩ defaultTol := by
  norm_num [Plane.contains, Plane.distance_to, defaultTol_ep]

theorem tloc8 (p : Point) : Point.transform p
    (Matrix3d.transform_to_local Point.origin ⟨1, 0, 0⟩ ⟨0, 1, 0⟩ defaultTol) = p := by
  obtain ⟨px, py, pz⟩ := p
  simp only [Matrix3d.transform_to_local, outer_xy, nrm_x, nrm_y, nrm_z,
    Matrix3d.rotation_axis, Matrix3d.to_origin, Matrix3d.multiply_by, Point.transform,
    Point.origin]
  norm_num

theorem tworld8 (p : Point) : Point.transform p
    (Matrix3d.transform_to_world Point.origin ⟨1, 0, 0⟩ ⟨0, 1, 0⟩ defaultTol) = p := by
  obtain ⟨px, py, pz⟩ := p
  simp only [Matrix3d.transform_to_world, outer_xy, nrm_x, nrm_y, nrm_z, Point.transform,
    Point.origin]
  norm_num

theorem lloc8 (l : Line) : Line.transformM l
    (Matrix3d.transform_to_local Point.origin ⟨1, 0, 0⟩ ⟨0, 1, 0⟩ defaultTol) defaultTol =
    .ok l := by
  rw [Line.transformM, tloc8, tloc8]

theorem quad8 : quadratic_equation 1 (-20) 84 defaultTol = .ok (14, 6) := by
  simp only [quadratic_equation, defaultTol]
  norm_num
  rw [sqrt64]
  norm_num

theorem len8a : Line.length ⟨⟨-10, 3, 0⟩, ⟨10, 3, 0⟩⟩ = 20 := by
  norm_num [Line.length, Point.distance_to, sqrt400]

theorem len8b : Line.length ⟨⟨-10, -3, 0⟩, ⟨10, -3, 0⟩⟩ = 20 := by
  norm_num [Line.length, Point.distance_to, sqrt400]

theorem pad14a : Line.point_at_dist ⟨⟨-10, 3, 0⟩, ⟨10, 3, 0⟩⟩ 14 true defaultTol =
    .ok ⟨4, 3, 0⟩ := by
  simp only [Line.point_at_dist]
  rw [if_neg (not_abs_lt (show defaultTol.equal_point ≤ 14 by rw [defaultTol_ep]; norm_num))]
  rw [len8a]
  rw [if_neg (not_abs_lt
    (show defaultTol.equal_point ≤ 20 - 14 by rw [defaultTol_ep]; norm_num))]
  rw [if_neg (show ¬ (true = false ∧ ((14 : ℝ) < 0 ∨ (20 : ℝ) < 14)) from
    fun h => nomatch h.1)]
  rw [dir8a]
  norm_num [Point.addVec, Vector.smul]

theorem pad6a : Line.point_at_dist ⟨⟨-10, 3, 0⟩, ⟨10, 3, 0⟩⟩ 6 true defaultTol =
    .ok ⟨-4, 3, 0⟩ := by
  simp only [Line.point_at_dist]
  rw [if_neg (not_abs_lt (show defaultTol.equal_point ≤ 6 by rw [defaultTol_ep]; norm_num))]
  rw [len8a]
  rw [if_neg (not_abs_lt
    (show defaultTol.equal_point ≤ 20 - 6 by rw [defaultTol_ep]; norm_num))]
  rw [if_neg (show ¬ (true = false ∧ ((6 : ℝ) < 0 ∨ (20 : ℝ) < 6)) from
    fun h => nomatch h.1)]
  rw [dir8a]
  norm_num [Point.addVec, Vector.smul]

theorem pad14b : Line.point_at_dist ⟨⟨-10, -3, 0⟩, ⟨10, -3, 0⟩⟩ 14 true defaultTol =
    .ok ⟨4, -3, 0⟩ := by
  simp only [Line.point_at_dist]
  rw [if_neg (not_abs_lt (show defaultTol.equal_point ≤ 14 by rw [defaultTol_ep]; norm_num))]
  rw [len8b]
  rw [if_neg (not_abs_lt
    (show defaultTol.equal_point ≤ 20 - 14 by rw [defaultTol_ep]; norm_num))]
  rw [if_neg (show ¬ (true = false ∧ ((14 : ℝ) < 0 ∨ (20 : ℝ) < 14)) from
    fun h => nomatch h.1)]
  rw [dir8b]
  norm_num [Point.addVec, Vector.smul]

theorem pad6b : Line.point_at_dist ⟨⟨-10, -3, 0⟩, ⟨10, -3, 0⟩⟩ 6 true defaultTol =
    .ok ⟨-4, -3, 0⟩ := by
  simp only [Line.point_at_dist]
  rw [if_neg (not_abs_lt (show defaultTol.equal_point ≤ 6 by rw [defaultTol_ep]; norm_num))]
  rw [len8b]
  rw [if_neg (not_abs_lt
    (show defaultTol.equal_point ≤ 20 - 6 by rw [defaultTol_ep]; norm_num))]
  rw [if_neg (show ¬ (true = false ∧ ((6 : ℝ) < 0 ∨ (20 : ℝ) < 6)) from
    fun h => nomatch h.1)]
  rw [dir8b]
  norm_num [Point.addVec, Vector.smul]

theorem arctan34_pos : 0 < Real.arctan (3 / 4) := by
  have h := Real.arctan_strictMono (show (0 : ℝ) < 3 / 4 by norm_num)
  rwa [Real.arctan_zero] at h

theorem arctan34_lt : Real.arctan (3 / 4) < Real.pi / 2 :=
  Real.arctan_lt_pi_div_two _

theorem pi_gt3 : (3 : ℝ) < Real.pi := Real.pi_gt_three

theorem arctan34_gt : 1 / 1000000 < Real.arctan (3 / 4) := by
  have hcos : (1 : ℝ) / 2 ≤ Real.cos (1 / 1000000) := by
    have h := Real.cos_le_cos_of_nonneg_of_le_pi (by norm_num : (0 : ℝ) ≤ 1 / 1000000)
      (by nlinarith [pi_gt3] : Real.pi / 3 ≤ Real.pi)
      (by nlinarith [pi_gt3] : (1 : ℝ) / 1000000 ≤ Real.pi / 3)
    rwa [Real.cos_pi_div_three] at h
  have hsin : Real.sin (1 / 1000000) < 1 / 1000000 := Real.sin_lt (by norm_num)
  have hsin0 : 0 ≤ Real.sin (1 / 1000000) :=
    Real.sin_nonneg_of_nonneg_of_le_pi (by norm_num) (by nlinarith [pi_gt3])
  have htan : Real.tan (1 / 1000000) < 3 / 4 := by
    rw [Real.tan_eq_sin_div_cos]
    have h1 : Real.sin (1 / 1000000) / Real.cos (1 / 1000000) ≤
        Real.sin (1 / 1000000) / (1 / 2) :=
      div_le_div_of_nonneg_left hsin0 (by norm_num) hcos
    calc Real.sin (1 / 1000000) / Real.cos (1 / 1000000)
        ≤ Real.sin (1 / 1000000) / (1 / 2) := h1
      _ = 2 * Real.sin (1 / 1000000) := by ring
      _ < 2 * (1 / 1000000) := by linarith
      _ < 3 / 4 := by norm_num
  have harc : Real.arctan (Real.tan (1 / 1000000)) < Real.arctan (3 / 4) :=
    Real.arctan_strictMono htan
  rwa [Real.arctan_tan (by nlinarith [pi_gt3]) (by nlinarith [pi_gt3])] at harc

theorem ang8_p1a : Arc.calc_angle_at_local_point ⟨4, 3, 0⟩ = Real.arctan (3 / 4) := by
  simp only [Arc.calc_angle_at_local_point, atan2]
  rw [if_pos (show (0 : ℝ) < 4 by norm_num)]
  rw [if_neg (not_lt.mpr arctan34_pos.le)]

theorem ang8_p2a : Arc.calc_angle_at_local_point ⟨-4, 3, 0⟩ =
    Real.pi - Real.arctan (3 / 4) := by
  simp only [Arc.calc_angle_at_local_point, atan2]
  rw [if_neg (show ¬ ((0 : ℝ) < -4) by norm_num)]
  rw [if_pos (show (-4 : ℝ) < 0 by norm_num)]
  rw [if_pos (show (0 : ℝ) ≤ 3 by norm_num)]
  have h3 : (3 : ℝ) / (-4) = -(3 / 4) := by norm_num
  rw [h3, Real.arctan_neg]
  rw [if_neg (show ¬ (-Real.arctan (3 / 4) + Real.pi < 0) by
    nlinarith [arctan34_lt, pi_gt3])]
  ring

theorem ang8_p1b : Arc.calc_angle_at_local_point ⟨4, -3, 0⟩ =
    2 * Real.pi - Real.arctan (3 / 4) := by
  simp only [Arc.calc_angle_at_local_point, atan2]
  rw [if_pos (show (0 : ℝ) < 4 by norm_num)]
  have h3 : (-3 : ℝ) / 4 = -(3 / 4) := by norm_num
  rw [h3, Real.arctan_neg]
  rw [if_pos (show -Real.arctan (3 / 4) < 0 by linarith [arctan34_pos])]
  ring

theorem ang8_p2b : Arc.calc_angle_at_local_point ⟨-4, -3, 0⟩ =
    Real.pi + Real.arctan (3 / 4) := by
  simp only [Arc.calc_angle_at_local_point, atan2]
  rw [if_neg (show ¬ ((0 : ℝ) < -4) by norm_num)]
  rw [if_pos (show (-4 : ℝ) < 0 by norm_num)]
  rw [if_neg (show ¬ ((0 : ℝ) ≤ -3) by norm_num)]
  have h3 : (-3 : ℝ) / (-4) = 3 / 4 := by norm_num
  rw [h3]
  rw [if_pos (show Real.arctan (3 / 4) - Real.pi < 0 by nlinarith [arctan34_lt, pi_gt3])]
  ring

theorem inr_p1a : Arc.is_param_in_range ⟨Point.origin, ⟨1, 0, 0⟩, ⟨0, 1, 0⟩, 5, 0, Real.pi⟩
    (Real.arctan (3 / 4)) defaultTol := by
  simp only [Arc.is_param_in_range]
  refine Or.inr (Or.inr ?_)
  push_neg
  exact ⟨arctan34_pos.le, by nlinarith [arctan34_lt, pi_gt3]⟩

theorem inr_p2a : Arc.is_param_in_range ⟨Point.origin, ⟨1, 0, 0⟩, ⟨0, 1, 0⟩, 5, 0, Real.pi⟩
    (Real.pi - Real.arctan (3 / 4)) defaultTol := by
  simp only [Arc.is_param_in_range]
  refine Or.inr (Or.inr ?_)
  push_neg
  constructor
  · nlinarith [arctan34_lt, pi_gt3]
  · nlinarith [arctan34_pos]

theorem ninr_p1b : ¬ Arc.is_param_in_range ⟨Point.origin, ⟨1, 0, 0⟩, ⟨0, 1, 0⟩, 5, 0, Real.pi⟩
    (2 * Real.pi - Real.arctan (3 / 4)) defaultTol := by
  simp only [Arc.is_param_in_range]
  push_neg
  refine ⟨?_, ?_, Or.inr ?_⟩
  · have habs : |0 - (2 * Real.pi - Real.arctan (3 / 4))| =
        2 * Real.pi - Real.arctan (3 / 4) := by
      rw [zero_sub, abs_neg]
      exact abs_of_pos (by nlinarith [arctan34_lt, pi_gt3])
    rw [defaultTol_ca, habs]
    nlinarith [arctan34_lt, pi_gt3]
  · have habs : |Real.pi - (2 * Real.pi - Real.arctan (3 / 4))| =
        Real.pi - Real.arctan (3 / 4) := by
      rw [show Real.pi - (2 * Real.pi - Real.arctan (3 / 4)) =
        -(Real.pi - Real.arctan (3 / 4)) by ring, abs_neg]
      exact abs_of_pos (by nlinarith [arctan34_lt, pi_gt3])
    rw [defaultTol_ca, habs]
    nlinarith [arctan34_lt, pi_gt3]
  · nlinarith [arctan34_lt, pi_gt3]

theorem ninr_p2b : ¬ Arc.is_param_in_range ⟨Point.origin, ⟨1, 0, 0⟩, ⟨0, 1, 0⟩, 5, 0, Real.pi⟩
    (Real.pi + Real.arctan (3 / 4)) defaultTol := by
  simp only [Arc.is_param_in_range]
  push_neg
  refine ⟨?_, ?_, Or.inr ?_⟩
  · have habs : |0 - (Real.pi + Real.arctan (3 / 4))| = Real.pi + Real.arctan (3 / 4) := by
      rw [zero_sub, abs_neg]
      exact abs_of_pos (by nlinarith [arctan34_pos, pi_gt3])
    rw [defaultTol_ca, habs]
    nlinarith [arctan34_pos, pi_gt3]
  · have habs : |Real.pi - (Real.pi + Real.arctan (3 / 4))| = Real.arctan (3 / 4) := by
      rw [show Real.pi - (Real.pi + Real.arctan (3 / 4)) = -(Real.arctan (3 / 4)) by ring,
        abs_neg]
      exact abs_of_pos arctan34_pos
    rw [defaultTol_ca, habs]
    exact arctan34_gt.le
  · nlinarith [arctan34_pos]

theorem in_local_eval_two (a : Arc) (other : Line) (ext : Bool) (tol : Tolerance)
    (roots : ℝ × ℝ) (p1 p2 : Point)
    (hq : quadratic_equation
        (((other.directionW tol).normal tol).x * ((other.directionW tol).normal tol).x +
          ((other.directionW tol).normal tol).y * ((other.directionW tol).normal tol).y)
        (2 * (other.start_point.x * ((other.directionW tol).normal tol).x +
          other.start_point.y * ((other.directionW tol).normal tol).y))
        (other.start_point.x * other.start_point.x +
          other.start_point.y * other.start_point.y - a.radius * a.radius) tol = .ok roots)
    (hp1 : other.point_at_dist roots.1 true tol = .ok p1)
    (hp2 : other.point_at_dist roots.2 true tol = .ok p2)
    (hk1 : a.is_param_in_range (Arc.calc_angle_at_local_point p1) tol ∧
      (ext = true ∨ other.contains p1 false tol))
    (hk2 : ¬ p1.is_equal_to p2 tol ∧
      a.is_param_in_range (Arc.calc_angle_at_local_point p2) tol ∧
      (ext = true ∨ other.contains p2 false tol)) :
    a.intersect_with_line_in_local other ext tol = .ok [p1, p2] := by
  simp only [Arc.intersect_with_line_in_local, hq, hp1, hp2]
  rw [if_pos hk1, if_pos hk2]
  simp

theorem in_local_eval_none (a : Arc) (other : Line) (ext : Bool) (tol : Tolerance)
    (roots : ℝ × ℝ) (p1 p2 : Point)
    (hq : quadratic_equation
        (((other.directionW tol).normal tol).x * ((other.directionW tol).normal tol).x +
          ((other.directionW tol).normal tol).y * ((other.directionW tol).normal tol).y)
        (2 * (other.start_point.x * ((other.directionW tol).normal tol).x +
          other.start_point.y * ((other.directionW tol).normal tol).y))
        (other.start_point.x * other.start_point.x +
          other.start_point.y * other.start_point.y - a.radius * a.radius) tol = .ok roots)
    (hp1 : other.point_at_dist roots.1 true tol = .ok p1)
    (hp2 : other.point_at_dist roots.2 true tol = .ok p2)
    (hk1 : ¬ (a.is_param_in_range (Arc.calc_angle_at_local_point p1) tol ∧
      (ext = true ∨ other.contains p1 false tol)))
    (hk2 : ¬ (¬ p1.is_equal_to p2 tol ∧
      a.is_param_in_range (Arc.calc_angle_at_local_point p2) tol ∧
      (ext = true ∨ other.contains p2 false tol))) :
    a.intersect_with_line_in_local other ext tol = .error .InvalidInput := by
  simp only [Arc.intersect_with_line_in_local, hq, hp1, hp2]
  rw [if_neg hk1, if_neg hk2]
  simp

theorem arc_line_eval_ok (a : Arc) (other : Line) (ext : Bool) (tol : Tolerance)
    (hpar : other.is_parallel_with_plane (a.containing_plane tol) tol)
    (hcont : (a.containing_plane tol).contains other.start_point tol)
    (ll : Line)
    (hll : other.transformM
      (Matrix3d.transform_to_local a.center_point a.x_axis a.y_axis tol) tol = .ok ll)
    (pts : List Point)
    (hloc : a.intersect_with_line_in_local ll ext tol = .ok pts)
    (w : List Point)
    (hmap : pts.mapM (fun p => p.transformM
      (Matrix3d.transform_to_world a.center_point a.x_axis a.y_axis tol) tol) = .ok w) :
    a.intersect_with_line other ext tol = .ok w := by
  simp only [Arc.intersect_with_line]
  rw [if_pos hpar, if_pos hcont]
  simp only [hll, hloc, hmap]

theorem arc_line_eval_err (a : Arc) (other : Line) (ext : Bool) (tol : Tolerance)
    (hpar : other.is_parallel_with_plane (a.containing_plane tol) tol)
    (hcont : (a.containing_plane tol).contains other.start_point tol)
    (ll : Line)
    (hll : other.transformM
      (Matrix3d.transform_to_local a.center_point a.x_axis a.y_axis tol) tol = .ok ll)
    (e : BgcError)
    (hloc : a.intersect_with_line_in_local ll ext tol = .error e) :
    a.intersect_with_line other ext tol = .error e := by
  simp only [Arc.intersect_with_line]
  rw [if_pos hpar, if_pos hcont]
  simp only [hll, hloc]

theorem map8 : List.mapM (fun p => Point.transformM p
    (Matrix3d.transform_to_world Point.origin ⟨1, 0, 0⟩ ⟨0, 1, 0⟩ defaultTol) defaultTol)
    [(⟨4, 3, 0⟩ : Point), ⟨-4, 3, 0⟩] = .ok [⟨4, 3, 0⟩, ⟨-4, 3, 0⟩] := by
  simp only [List.mapM_cons, List.mapM_nil, Point.transformM, tworld8]
  rfl

theorem c8help_two : Arc.intersect_with_line
    ⟨Point.origin, ⟨1, 0, 0⟩, ⟨0, 1, 0⟩, 5, 0, Real.pi⟩ ⟨⟨-10, 3, 0⟩, ⟨10, 3, 0⟩⟩ true
    defaultTol = .ok [⟨4, 3, 0⟩, ⟨-4, 3, 0⟩] := by
  refine arc_line_eval_ok _ _ _ _ ?_ ?_ ⟨⟨-10, 3, 0⟩, ⟨10, 3, 0⟩⟩ ?_
    [(⟨4, 3, 0⟩ : Point), ⟨-4, 3, 0⟩] ?_ [(⟨4, 3, 0⟩ : Point), ⟨-4, 3, 0⟩] ?_
  · rw [cplane8]
    exact para8a
  · rw [cplane8]
    exact cont8a
  · exact lloc8 _
  · refine in_local_eval_two _ _ _ _ (14, 6) _ _ ?_ pad14a pad6a ?_ ?_
    · rw [dirW8a, nrm_x]
      norm_num
      exact quad8
    · constructor
      · rw [ang8_p1a]
        exact inr_p1a
      · exact Or.inl rfl
    · refine ⟨not_pt_eq (by norm_num), ?_, Or.inl rfl⟩
      rw [ang8_p2a]
      exact inr_p2a
  · exact map8

theorem c8help_err : Arc.intersect_with_line
    ⟨Point.origin, ⟨1, 0, 0⟩, ⟨0, 1, 0⟩, 5, 0, Real.pi⟩ ⟨⟨-10, -3, 0⟩, ⟨10, -3, 0⟩⟩ false
    defaultTol = .error .InvalidInput := by
  refine arc_line_eval_err _ _ _ _ ?_ ?_ ⟨⟨-10, -3, 0⟩, ⟨10, -3, 0⟩⟩ ?_ .InvalidInput ?_
  · rw [cplane8]
    exact para8b
  · rw [cplane8]
    exact cont8b
  · exact lloc8 _
  · refine in_local_eval_none _ _ _ _ (14, 6) _ _ ?_ pad14b pad6b ?_ ?_
    · rw [dirW8b, nrm_x]
      norm_num
      exact quad8
    · intro hcon
      obtain ⟨hr, -⟩ := hcon
      rw [ang8_p1b] at hr
      exact ninr_p1b hr
    · intro hcon
      obtain ⟨-, hr, -⟩ := hcon
      rw [ang8_p2b] at hr
      exact ninr_p2b hr

theorem cp_eval_world (a : Arc) (p : Point) (tol : Tolerance) (oa : Point)
    (hpad : Line.point_at_dist
      ⟨Point.origin, ⟨(p.transform (Matrix3d.transform_to_local a.center_point a.x_axis
          a.y_axis tol)).x,
        (p.transform (Matrix3d.transform_to_local a.center_point a.x_axis a.y_axis tol)).y,
        0⟩⟩ a.radius true tol = .ok oa)
    (hinr : a.is_param_in_range (Arc.calc_angle_at_local_point oa) tol) :
    a.closest_point p false tol = .ok (oa.transform
      (Matrix3d.transform_to_world a.center_point a.x_axis a.y_axis tol)) := by
  simp only [Arc.closest_point, Point.transformM, hpad]
  rw [if_neg (show ¬ (True ∧ ¬ a.is_param_in_range
    (Arc.calc_angle_at_local_point oa) tol) from fun hcon => hcon.2 hinr)]

theorem cp_eval_start (a : Arc) (p : Point) (tol : Tolerance) (oa : Point)
    (hpad : Line.point_at_dist
      ⟨Point.origin, ⟨(p.transform (Matrix3d.transform_to_local a.center_point a.x_axis
          a.y_axis tol)).x,
        (p.transform (Matrix3d.transform_to_local a.center_point a.x_axis a.y_axis tol)).y,
        0⟩⟩ a.radius true tol = .ok oa)
    (hninr : ¬ a.is_param_in_range (Arc.calc_angle_at_local_point oa) tol)
    (hd : a.start_point.distance_to
        ⟨(p.transform (Matrix3d.transform_to_local a.center_point a.x_axis a.y_axis tol)).x,
         (p.transform (Matrix3d.transform_to_local a.center_point a.x_axis a.y_axis tol)).y,
         0⟩ <
      a.end_point.distance_to
        ⟨(p.transform (Matrix3d.transform_to_local a.center_point a.x_axis a.y_axis tol)).x,
         (p.transform (Matrix3d.transform_to_local a.center_point a.x_axis a.y_axis tol)).y,
         0⟩) :
    a.closest_point p false tol = .ok a.start_point := by
  simp only [Arc.closest_point, Point.transformM, hpad]
  rw [if_pos ⟨trivial, hninr⟩, if_pos hd]

theorem cp_eval_end (a : Arc) (p : Point) (tol : Tolerance) (oa : Point)
    (hpad : Line.point_at_dist
      ⟨Point.origin, ⟨(p.transform (Matrix3d.transform_to_local a.center_point a.x_axis
          a.y_axis tol)).x,
        (p.transform (Matrix3d.transform_to_local a.center_point a.x_axis a.y_axis tol)).y,
        0⟩⟩ a.radius true tol = .ok oa)
    (hninr : ¬ a.is_param_in_range (Arc.calc_angle_at_local_point oa) tol)
    (hd : ¬ (a.start_point.distance_to
        ⟨(p.transform (Matrix3d.transform_to_local a.center_point a.x_axis a.y_axis tol)).x,
         (p.transform (Matrix3d.transform_to_local a.center_point a.x_axis a.y_axis tol)).y,
         0⟩ <
      a.end_point.distance_to
        ⟨(p.transform (Matrix3d.transform_to_local a.center_point a.x_axis a.y_axis tol)).x,
         (p.transform (Matrix3d.transform_to_local a.center_point a.x_axis a.y_axis tol)).y,
         0⟩)) :
    a.closest_point p false tol = .ok a.end_point := by
  simp only [Arc.closest_point, Point.transformM, hpad]
  rw [if_pos ⟨trivial, hninr⟩, if_neg hd]

theorem contains_of_endpoint (a : Arc) (tol : Tolerance) (hep : 0 < tol.equal_point)
    (cp : Point) (h : cp = a.start_point ∨ cp = a.end_point) : a.contains cp false tol := by
  rcases h with h | h
  · exact Or.inl (h ▸ is_equal_to_self hep a.start_point)
  · exact Or.inr (Or.inl (h ▸ is_equal_to_self hep a.end_point))

theorem contains_of_closest_eq (a : Arc) (cp : Point) (tol : Tolerance)
    (hep : 0 < tol.equal_point) (h : a.closest_point cp false tol = .ok cp) :
    a.contains cp false tol := by
  refine Or.inr (Or.inr ?_)
  simp only [h]
  exact is_equal_to_self hep cp

theorem len_origin (x y : ℝ) :
    Line.length ⟨Point.origin, ⟨x, y, 0⟩⟩ = Vector.length ⟨x, y, 0⟩ := by
  simp only [Line.length, Point.distance_to, Vector.length, Point.origin]
  ring_nf

theorem dir_origin (x y : ℝ) (h : defaultTol.equal_vector ≤ Vector.length ⟨x, y, 0⟩) :
    Line.direction ⟨Point.origin, ⟨x, y, 0⟩⟩ =
      ⟨x / Vector.length ⟨x, y, 0⟩, y / Vector.length ⟨x, y, 0⟩, 0⟩ := by
  simp only [Line.direction, Point.sub, Point.origin, Vector.normal]
  norm_num
  exact fun hcon => absurd hcon (not_lt.mpr h)

theorem vlen_scaled (x y r n : ℝ) (hr : 0 ≤ r) (hn : 0 < n)
    (hnn : n * n = x * x + y * y + 0 * 0) :
    Vector.length ⟨x / n * r, y / n * r, 0⟩ = r := by
  simp only [Vector.length]
  refine sqrt_val hr ?_
  field_simp
  nlinarith [hnn]

theorem vl_tiny : Vector.length ⟨1 / 2000000, 0, 0⟩ = 1 / 2000000 := by
  simp only [Vector.length]
  refine sqrt_val (by norm_num) ?_
  norm_num

theorem vl_small : Vector.length ⟨1 / 200000, 0, 0⟩ = 1 / 200000 := by
  simp only [Vector.length]
  refine sqrt_val (by norm_num) ?_
  norm_num

theorem len9a : Line.length ⟨Point.origin, ⟨1 / 2000000, 0, 0⟩⟩ = 1 / 2000000 := by
  simp only [Line.length, Point.distance_to, Point.origin]
  refine sqrt_val (by norm_num) ?_
  norm_num

theorem len9b : Line.length ⟨Point.origin, ⟨1 / 200000, 0, 0⟩⟩ = 1 / 200000 := by
  simp only [Line.length, Point.distance_to, Point.origin]
  refine sqrt_val (by norm_num) ?_
  norm_num

theorem dir9a : Line.direction ⟨Point.origin, ⟨1 / 2000000, 0, 0⟩⟩ =
    ⟨1 / 2000000, 0, 0⟩ := by
  simp only [Line.direction]
  rw [show (Line.mk Point.origin ⟨1 / 2000000, 0, 0⟩).end_point.sub
      (Line.mk Point.origin ⟨1 / 2000000, 0, 0⟩).start_point = (⟨1 / 2000000, 0, 0⟩ : Vector)
    from by norm_num [Point.sub, Point.origin]]
  simp only [Vector.normal, vl_tiny]
  rw [if_pos (show (1 : ℝ) / 2000000 < defaultTol.equal_vector from by
    rw [defaultTol_ev]; norm_num)]

theorem dir9b : Line.direction ⟨Point.origin, ⟨1 / 200000, 0, 0⟩⟩ = ⟨1, 0, 0⟩ := by
  simp only [Line.direction]
  rw [show (Line.mk Point.origin ⟨1 / 200000, 0, 0⟩).end_point.sub
      (Line.mk Point.origin ⟨1 / 200000, 0, 0⟩).start_point = (⟨1 / 200000, 0, 0⟩ : Vector)
    from by norm_num [Point.sub, Point.origin]]
  simp only [Vector.normal, vl_small]
  rw [if_neg (show ¬ ((1 : ℝ) / 200000 < defaultTol.equal_vector) from by
    rw [defaultTol_ev]; norm_num)]
  norm_num

theorem pad9a : Line.point_at_dist ⟨Point.origin, ⟨1 / 2000000, 0, 0⟩⟩ 10 true defaultTol =
    .ok ⟨1 / 200000, 0, 0⟩ := by
  simp only [Line.point_at_dist]
  rw [if_neg (not_abs_lt (show defaultTol.equal_point ≤ 10 by rw [defaultTol_ep]; norm_num))]
  rw [len9a]
  rw [if_neg (not_abs_lt' (show defaultTol.equal_point ≤ -(1 / 2000000 - 10) by
    rw [defaultTol_ep]; norm_num))]
  rw [if_neg (show ¬ (true = false ∧ ((10 : ℝ) < 0 ∨ (1 / 2000000 : ℝ) < 10)) from
    fun h => nomatch h.1)]
  rw [dir9a]
  norm_num [Point.addVec, Vector.smul, Point.origin]

theorem pad9b : Line.point_at_dist ⟨Point.origin, ⟨1 / 200000, 0, 0⟩⟩ 10 true defaultTol =
    .ok ⟨10, 0, 0⟩ := by
  simp only [Line.point_at_dist]
  rw [if_neg (not_abs_lt (show defaultTol.equal_point ≤ 10 by rw [defaultTol_ep]; norm_num))]
  rw [len9b]
  rw [if_neg (not_abs_lt' (show defaultTol.equal_point ≤ -(1 / 200000 - 10) by
    rw [defaultTol_ep]; norm_num))]
  rw [if_neg (show ¬ (true = false ∧ ((10 : ℝ) < 0 ∨ (1 / 200000 : ℝ) < 10)) from
    fun h => nomatch h.1)]
  rw [dir9b]
  norm_num [Point.addVec, Vector.smul, Point.origin]

theorem ang9a : Arc.calc_angle_at_local_point ⟨1 / 200000, 0, 0⟩ = 0 := by
  simp only [Arc.calc_angle_at_local_point, atan2]
  rw [if_pos (show (0 : ℝ) < 1 / 200000 by norm_num)]
  norm_num [Real.arctan_zero]

theorem ang9b : Arc.calc_angle_at_local_point ⟨10, 0, 0⟩ = 0 := by
  simp only [Arc.calc_angle_at_local_point, atan2]
  rw [if_pos (show (0 : ℝ) < 10 by norm_num)]
  norm_num [Real.arctan_zero]

theorem inr9 : Arc.is_param_in_range ⟨Point.origin, ⟨1, 0, 0⟩, ⟨0, 1, 0⟩, 10, 0, 2 * Real.pi⟩
    0 defaultTol := by
  simp only [Arc.is_param_in_range]
  exact Or.inl (by rw [defaultTol_ca]; norm_num)

theorem closest9a : Arc.closest_point ⟨Point.origin, ⟨1, 0, 0⟩, ⟨0, 1, 0⟩, 10, 0, 2 * Real.pi⟩
    ⟨1 / 2000000, 0, 0⟩ false defaultTol = .ok ⟨1 / 200000, 0, 0⟩ := by
  have hpad : Line.point_at_dist
      ⟨Point.origin, ⟨((Point.mk (1 / 2000000) 0 0).transform
          (Matrix3d.transform_to_local Point.origin ⟨1, 0, 0⟩ ⟨0, 1, 0⟩ defaultTol)).x,
        ((Point.mk (1 / 2000000) 0 0).transform
          (Matrix3d.transform_to_local Point.origin ⟨1, 0, 0⟩ ⟨0, 1, 0⟩ defaultTol)).y, 0⟩⟩
      10 true defaultTol = .ok ⟨1 / 200000, 0, 0⟩ := by
    rw [tloc8]
    exact pad9a
  have hinr : Arc.is_param_in_range ⟨Point.origin, ⟨1, 0, 0⟩, ⟨0, 1, 0⟩, 10, 0, 2 * Real.pi⟩
      (Arc.calc_angle_at_local_point ⟨1 / 200000, 0, 0⟩) defaultTol := by
    rw [ang9a]
    exact inr9
  have h := cp_eval_world ⟨Point.origin, ⟨1, 0, 0⟩, ⟨0, 1, 0⟩, 10, 0, 2 * Real.pi⟩
    ⟨1 / 2000000, 0, 0⟩ defaultTol ⟨1 / 200000, 0, 0⟩ hpad hinr
  rwa [tworld8] at h

theorem closest9b : Arc.closest_point ⟨Point.origin, ⟨1, 0, 0⟩, ⟨0, 1, 0⟩, 10, 0, 2 * Real.pi⟩
    ⟨1 / 200000, 0, 0⟩ false defaultTol = .ok ⟨10, 0, 0⟩ := by
  have hpad : Line.point_at_dist
      ⟨Point.origin, ⟨((Point.mk (1 / 200000) 0 0).transform
          (Matrix3d.transform_to_local Point.origin ⟨1, 0, 0⟩ ⟨0, 1, 0⟩ defaultTol)).x,
        ((Point.mk (1 / 200000) 0 0).transform
          (Matrix3d.transform_to_local Point.origin ⟨1, 0, 0⟩ ⟨0, 1, 0⟩ defaultTol)).y, 0⟩⟩
      10 true defaultTol = .ok ⟨10, 0, 0⟩ := by
    rw [tloc8]
    exact pad9b
  have hinr : Arc.is_param_in_range ⟨Point.origin, ⟨1, 0, 0⟩, ⟨0, 1, 0⟩, 10, 0, 2 * Real.pi⟩
      (Arc.calc_angle_at_local_point ⟨10, 0, 0⟩) defaultTol := by
    rw [ang9b]
    exact inr9
  have h := cp_eval_world ⟨Point.origin, ⟨1, 0, 0⟩, ⟨0, 1, 0⟩, 10, 0, 2 * Real.pi⟩
    ⟨1 / 200000, 0, 0⟩ defaultTol ⟨10, 0, 0⟩ hpad hinr
  rwa [tworld8] at h

theorem startpt9 : Arc.start_point ⟨Point.origin, ⟨1, 0, 0⟩, ⟨0, 1, 0⟩, 10, 0, 2 * Real.pi⟩ =
    ⟨10, 0, 0⟩ := by
  simp only [Arc.start_point, Arc.calc_point_at_param]
  norm_num [Real.cos_zero, Real.sin_zero, Point.addVec, Vector.smul, Vector.add, Point.origin]

theorem endpt9 : Arc.end_point ⟨Point.origin, ⟨1, 0, 0⟩, ⟨0, 1, 0⟩, 10, 0, 2 * Real.pi⟩ =
    ⟨10, 0, 0⟩ := by
  simp only [Arc.end_point, Arc.calc_point_at_param]
  norm_num [Real.cos_two_pi, Real.sin_two_pi, Point.addVec, Vector.smul, Vector.add,
    Point.origin]

theorem vl7 : Vector.length ⟨7, 0, 0⟩ = 7 := by
  simp only [Vector.length]
  refine sqrt_val (by norm_num) ?_
  norm_num

theorem len7 : Line.length ⟨Point.origin, ⟨7, 0, 0⟩⟩ = 7 := by
  simp only [Line.length, Point.distance_to, Point.origin]
  refine sqrt_val (by norm_num) ?_
  norm_num

theorem dir7 : Line.direction ⟨Point.origin, ⟨7, 0, 0⟩⟩ = ⟨1, 0, 0⟩ := by
  simp only [Line.direction]
  rw [show (Line.mk Point.origin ⟨7, 0, 0⟩).end_point.sub
      (Line.mk Point.origin ⟨7, 0, 0⟩).start_point = (⟨7, 0, 0⟩ : Vector)
    from by norm_num [Point.sub, Point.origin]]
  simp only [Vector.normal, vl7]
  rw [if_neg (show ¬ ((7 : ℝ) < defaultTol.equal_vector) from by
    rw [defaultTol_ev]; norm_num)]
  norm_num

theorem pad7 : Line.point_at_dist ⟨Point.origin, ⟨7, 0, 0⟩⟩ 5 true defaultTol =
    .ok ⟨5, 0, 0⟩ := by
  simp only [Line.point_at_dist]
  rw [if_neg (not_abs_lt (show defaultTol.equal_point ≤ 5 by rw [defaultTol_ep]; norm_num))]
  rw [len7]
  rw [if_neg (not_abs_lt (show defaultTol.equal_point ≤ 7 - 5 by
    rw [defaultTol_ep]; norm_num))]
  rw [if_neg (show ¬ (true = false ∧ ((5 : ℝ) < 0 ∨ (7 : ℝ) < 5)) from
    fun h => nomatch h.1)]
  rw [dir7]
  norm_num [Point.addVec, Vector.smul, Point.origin]

theorem ang5 : Arc.calc_angle_at_local_point ⟨5, 0, 0⟩ = 0 := by
  simp only [Arc.calc_angle_at_local_point, atan2]
  rw [if_pos (show (0 : ℝ) < 5 by norm_num)]
  norm_num [Real.arctan_zero]

theorem inr95 : Arc.is_param_in_range ⟨Point.origin, ⟨1, 0, 0⟩, ⟨0, 1, 0⟩, 5, 0, 2 * Real.pi⟩
    0 defaultTol := by
  simp only [Arc.is_param_in_range]
  exact Or.inl (by rw [defaultTol_ca]; norm_num)

theorem c9w_closest : Arc.closest_point
    ⟨Point.origin, ⟨1, 0, 0⟩, ⟨0, 1, 0⟩, 5, 0, 2 * Real.pi⟩ ⟨7, 0, 0⟩ false defaultTol =
    .ok ⟨5, 0, 0⟩ := by
  have hpad : Line.point_at_dist
      ⟨Point.origin, ⟨((Point.mk 7 0 0).transform
          (Matrix3d.transform_to_local Point.origin ⟨1, 0, 0⟩ ⟨0, 1, 0⟩ defaultTol)).x,
        ((Point.mk 7 0 0).transform
          (Matrix3d.transform_to_local Point.origin ⟨1, 0, 0⟩ ⟨0, 1, 0⟩ defaultTol)).y, 0⟩⟩
      5 true defaultTol = .ok ⟨5, 0, 0⟩ := by
    rw [tloc8]
    exact pad7
  have hinr : Arc.is_param_in_range ⟨Point.origin, ⟨1, 0, 0⟩, ⟨0, 1, 0⟩, 5, 0, 2 * Real.pi⟩
      (Arc.calc_angle_at_local_point ⟨5, 0, 0⟩) defaultTol := by
    rw [ang5]
    exact inr95
  have h := cp_eval_world ⟨Point.origin, ⟨1, 0, 0⟩, ⟨0, 1, 0⟩, 5, 0, 2 * Real.pi⟩
    ⟨7, 0, 0⟩ defaultTol ⟨5, 0, 0⟩ hpad hinr
  rwa [tworld8] at h

theorem c9w_hlp : defaultTol.equal_vector ≤ Vector.length
    ⟨((Point.mk 7 0 0).transform (Matrix3d.transform_to_local Point.origin ⟨1, 0, 0⟩
        ⟨0, 1, 0⟩ defaultTol)).x,
      ((Point.mk 7 0 0).transform (Matrix3d.transform_to_local Point.origin ⟨1, 0, 0⟩
        ⟨0, 1, 0⟩ defaultTol)).y, 0⟩ := by
  rw [tloc8]
  show defaultTol.equal_vector ≤ Vector.length ⟨7, 0, 0⟩
  rw [vl7, defaultTol_ev]
  norm_num

theorem quadratic_equation_cases :
    ∀ a b c : ℝ, ∀ tol : Tolerance,
      (|a| ≤ tol.calculation → quadratic_equation a b c tol = .error .InvalidInput) ∧
      (¬ |a| ≤ tol.calculation →
        ((|b * b - 4 * a * c| ≤ tol.calculation →
            quadratic_equation a b c tol = .ok (-b / (2 * a), -b / (2 * a))) ∧
         (¬ |b * b - 4 * a * c| ≤ tol.calculation → b * b - 4 * a * c < 0 →
            quadratic_equation a b c tol = .error .MustBeNoNegative) ∧
         (¬ |b * b - 4 * a * c| ≤ tol.calculation → 0 ≤ b * b - 4 * a * c →
            quadratic_equation a b c tol =
              .ok ((-b + Real.sqrt (b * b - 4 * a * c)) / (2 * a),
                   (-b - Real.sqrt (b * b - 4 * a * c)) / (2 * a))))) := by
  intro a b c tol
  constructor
  · intro h
    simp only [quadratic_equation, if_pos h]
  · intro h
    refine ⟨?_, ?_, ?_⟩
    · intro hd
      simp only [quadratic_equation]
      rw [if_neg h, if_pos hd, if_neg (lt_irrefl (0 : ℝ))]
      simp [Real.sqrt_zero]
    · intro hd hneg
      simp only [quadratic_equation]
      rw [if_neg h, if_neg hd, if_pos hneg]
    · intro hd hnn
      simp only [quadratic_equation]
      rw [if_neg h, if_neg hd, if_neg (not_lt.mpr hnn)]

theorem c6_inst1 :
    quadratic_equation 1 (-(93 / 10)) (-(2623 / 10)) defaultTol = .ok (43 / 2, -(61 / 5)) := by
  have hs : Real.sqrt (113569 / 100) = 337 / 10 :=
    sqrt_val (by norm_num) (by norm_num)
  simp only [quadratic_equation, defaultTol]
  norm_num
  rw [if_neg (not_abs_le (show (1 : ℝ) / 1000000 < 113569 / 100 by norm_num))]
  rw [if_neg (show ¬ ((113569 : ℝ) / 100 < 0) by norm_num)]
  rw [hs]
  norm_num

theorem c6_inst2 : ∀ b c : ℝ, quadratic_equation 0 b c defaultTol = .error .InvalidInput := by
  intro b c
  simp only [quadratic_equation]
  rw [if_pos (by norm_num [defaultTol])]

theorem c6_inst3 :
    quadratic_equation (116 / 5) (37 / 2) (488 / 5) defaultTol = .error .MustBeNoNegative := by
  simp only [quadratic_equation, defaultTol]
  norm_num
  rw [if_neg (not_abs_le (show (1 : ℝ) / 1000000 < 871503 / 100 by norm_num))]
  rw [if_pos (show (-(871503 / 100) : ℝ) < 0 by norm_num)]
  rw [if_neg (not_abs_le (show (1 : ℝ) / 1000000 < 116 / 5 by norm_num))]

/-- Claim C1: the spec says that for two arcs whose containing planes are
parallel and coplanar, Arc::intersect_with_arc solves the circle-circle
intersection in the local frame, returning (3,4,0) and (3,-4,0) for two
radius-5 circles centered at (0,0,0) and (6,0,0). The code cannot do this:
its plane-parallelism test delegates to the constant-false
Vector::is_parallel_to, so every call, the spec scenario included, returns
the error NotImplemented. -/
theorem c1_arc_arc_intersection_stub :
    (∀ (a other : Arc) (ext : Bool) (tol : Tolerance),
      Arc.intersect_with_arc a other ext tol = .error .NotImplemented) ∧
    Arc.intersect_with_arc ⟨Point.origin, ⟨1, 0, 0⟩, ⟨0, 1, 0⟩, 5, 0, 2 * Real.pi⟩
      ⟨⟨6, 0, 0⟩, ⟨1, 0, 0⟩, ⟨0, 1, 0⟩, 5, 0, 2 * Real.pi⟩ false defaultTol =
      .error .NotImplemented := by
  have hgen : ∀ (a other : Arc) (ext : Bool) (tol : Tolerance),
      Arc.intersect_with_arc a other ext tol = .error .NotImplemented := by
    intro a other ext tol
    simp only [Arc.intersect_with_arc]
    rw [if_neg (show ¬ Plane.is_parallel_to (a.containing_plane tol)
      (a.containing_plane tol) tol from fun h => h)]
  exact ⟨hgen, hgen _ _ _ _⟩

/-- Claim C2: the spec says Vector::is_parallel_to compares the dot product
of the normalized vectors against 1 - tol.equal_vector and is false for
zero-length operands. The body of the source function is literally the
constant false, so the predicate rejects every pair of vectors, including
the parallel pair (0,3,4), (0,6,8). -/
theorem c2_vector_is_parallel_to_stub :
    (∀ (v w : Vector) (tol : Tolerance), ¬ Vector.is_parallel_to v w tol) ∧
    ¬ Vector.is_parallel_to ⟨0, 3, 4⟩ ⟨0, 6, 8⟩ defaultTol :=
  ⟨fun _ _ _ h => h, fun h => h⟩

/-- Claim C3: for every point p, origin o and orthonormal axes (u, v),
transforming p by Matrix3d::transform_to_local(o, u, v) and then by
Matrix3d::transform_to_world(o, u, v) yields a point equal to p within
tol.equal_point (here the round trip is even exact). -/
theorem c3_transform_round_trip (p o : Point) (u v : Vector) (tol : Tolerance)
    (hu : u.inner_product u = 1) (hv : v.inner_product v = 1)
    (huv : u.inner_product v = 0) (hep : 0 < tol.equal_point) :
    ((p.transform (Matrix3d.transform_to_local o u v tol)).transform
      (Matrix3d.transform_to_world o u v tol)).is_equal_to p tol := by
  rw [transform_local_world o u v tol p hu hv huv]
  exact is_equal_to_self hep p

theorem c3_transform_round_trip_witness :
    (((⟨4, 5, 6⟩ : Point).transform
        (Matrix3d.transform_to_local ⟨1, 2, 3⟩ ⟨1, 0, 0⟩ ⟨0, 1, 0⟩ defaultTol)).transform
      (Matrix3d.transform_to_world ⟨1, 2, 3⟩ ⟨1, 0, 0⟩ ⟨0, 1, 0⟩ defaultTol)).is_equal_to
      ⟨4, 5, 6⟩ defaultTol :=
  c3_transform_round_trip ⟨4, 5, 6⟩ ⟨1, 2, 3⟩ ⟨1, 0, 0⟩ ⟨0, 1, 0⟩ defaultTol
    (by norm_num [Vector.inner_product]) (by norm_num [Vector.inner_product])
    (by norm_num [Vector.inner_product]) (by rw [defaultTol_ep]; norm_num)

/-- Claim C4: for two non-parallel lines sharing no endpoint,
Line::intersect_with_line builds the candidate points from the parameters
L1 = (S2*Q+S1)/(1-Q^2) and L2 = (S1*Q+S2)/(1-Q^2) along the unit directions,
fails InvalidInput when either candidate is off its segment or when the two
candidates differ beyond tolerance, and otherwise returns the single
coincidence point; for l1 = ((1,1,0),(7,7,0)) and l2 = ((2,6,0),(6,1,0))
with extends = false the result is (34/9, 34/9, 0). -/
theorem c4_line_line_intersection (l other : Line) (ext : Bool) (tol : Tolerance)
    (h1 : ¬ (l.start_point.is_equal_to other.start_point tol ∨
      l.start_point.is_equal_to other.end_point tol))
    (h2 : ¬ (l.end_point.is_equal_to other.start_point tol ∨
      l.end_point.is_equal_to other.end_point tol))
    (h3 : ¬ l.is_parallel other tol) :
    (∀ p1 p2 : Point,
      l.start_point.addVec (l.direction.smul
        ((-(other.direction.inner_product (other.start_point.sub l.start_point)) *
            l.direction.inner_product other.direction +
          l.direction.inner_product (other.start_point.sub l.start_point)) /
          (1 - l.direction.inner_product other.direction *
            l.direction.inner_product other.direction))) = p1 →
      other.start_point.addVec (other.direction.smul
        ((l.direction.inner_product (other.start_point.sub l.start_point) *
            l.direction.inner_product other.direction +
          -(other.direction.inner_product (other.start_point.sub l.start_point))) /
          (1 - l.direction.inner_product other.direction *
            l.direction.inner_product other.direction))) = p2 →
      ((¬ l.is_on p1 ext tol ∨ ¬ other.is_on p2 ext tol) →
        l.intersect_with_line other ext tol = .error .InvalidInput) ∧
      (l.is_on p1 ext tol → other.is_on p2 ext tol → ¬ p1.is_equal_to p2 tol →
        l.intersect_with_line other ext tol = .error .InvalidInput) ∧
      (l.is_on p1 ext tol → other.is_on p2 ext tol → p1.is_equal_to p2 tol →
        l.intersect_with_line other ext tol = .ok [p1])) ∧
    Line.intersect_with_line ⟨⟨1, 1, 0⟩, ⟨7, 7, 0⟩⟩ ⟨⟨2, 6, 0⟩, ⟨6, 1, 0⟩⟩ false
      defaultTol = .ok [⟨34 / 9, 34 / 9, 0⟩] := by
  constructor
  · intro p1 p2 hp1 hp2
    refine ⟨?_, ?_, ?_⟩
    · intro hbad
      simp only [Line.intersect_with_line]
      rw [if_neg h1, if_neg h2, if_neg h3, hp1, hp2, if_pos hbad]
    · intro hon1 hon2 hne
      simp only [Line.intersect_with_line]
      rw [if_neg h1, if_neg h2, if_neg h3, hp1, hp2,
        if_neg (not_or_intro (not_not_intro hon1) (not_not_intro hon2)), if_neg hne]
    · intro hon1 hon2 heq
      simp only [Line.intersect_with_line]
      rw [if_neg h1, if_neg h2, if_neg h3, hp1, hp2,
        if_neg (not_or_intro (not_not_intro hon1) (not_not_intro hon2)), if_pos heq]
  · exact c4ok

theorem c4_line_line_intersection_witness :
    Line.intersect_with_line ⟨⟨1, 1, 0⟩, ⟨7, 7, 0⟩⟩ ⟨⟨2, 6, 0⟩, ⟨6, 1, 0⟩⟩ false
      defaultTol = .ok [⟨34 / 9, 34 / 9, 0⟩] :=
  (c4_line_line_intersection ⟨⟨1, 1, 0⟩, ⟨7, 7, 0⟩⟩ ⟨⟨2, 6, 0⟩, ⟨6, 1, 0⟩⟩ false defaultTol
    (not_or_intro (not_pt_eq (by norm_num)) (not_pt_eq (by norm_num)))
    (not_or_intro (not_pt_eq (by norm_num)) (not_pt_eq (by norm_num))) c4np).2

/-- Claim C5, amended: line-line intersection is symmetric only away from the
endpoint shortcuts. When no endpoint of one line coincides with an endpoint
of the other within tolerance and both calls succeed, each returns a single
point and the two points are equal within tolerance. (The original claim is
refuted by c5_line_line_symmetry_counterexample: for a segment and its
reversal the endpoint shortcut returns the two distinct endpoints.) -/
theorem c5_line_line_symmetry_amended :
    ∀ (l1 l2 : Line) (ext : Bool) (tol : Tolerance),
      ¬ l1.start_point.is_equal_to l2.start_point tol →
      ¬ l1.start_point.is_equal_to l2.end_point tol →
      ¬ l1.end_point.is_equal_to l2.start_point tol →
      ¬ l1.end_point.is_equal_to l2.end_point tol →
      ∀ ps1 ps2, l1.intersect_with_line l2 ext tol = .ok ps1 →
        l2.intersect_with_line l1 ext tol = .ok ps2 →
        ∃ p1 p2, ps1 = [p1] ∧ ps2 = [p2] ∧ p1.is_equal_to p2 tol := by
  intro l1 l2 ext tol h11 h12 h21 h22 ps1 ps2 hr1 hr2
  have h11' : ¬ l2.start_point.is_equal_to l1.start_point tol :=
    fun h => h11 (is_equal_to_comm h)
  have h12' : ¬ l2.end_point.is_equal_to l1.start_point tol :=
    fun h => h12 (is_equal_to_comm h)
  have h21' : ¬ l2.start_point.is_equal_to l1.end_point tol :=
    fun h => h21 (is_equal_to_comm h)
  have h22' : ¬ l2.end_point.is_equal_to l1.end_point tol :=
    fun h => h22 (is_equal_to_comm h)
  simp only [Line.intersect_with_line] at hr1 hr2
  rw [if_neg (not_or_intro h11 h12), if_neg (not_or_intro h21 h22)] at hr1
  rw [if_neg (not_or_intro h11' h21'), if_neg (not_or_intro h12' h22')] at hr2
  by_cases hp1 : l1.is_parallel l2 tol
  · rw [if_pos hp1] at hr1
    exact absurd hr1 (by simp)
  rw [if_neg hp1] at hr1
  by_cases hp2 : l2.is_parallel l1 tol
  · rw [if_pos hp2] at hr2
    exact absurd hr2 (by simp)
  rw [if_neg hp2] at hr2
  obtain ⟨hc1, hc2, hv⟩ := except_ite_ok hr1
  obtain ⟨hd1, hd2, hw⟩ := except_ite_ok hr2
  refine ⟨_, _, hv.symm, hw.symm, ?_⟩
  rw [ll_swap l1.start_point l2.start_point l1.direction l2.direction]
  exact hc2

/-- Counterexample to the literal claim C5: the segment ((0,0,0),(1,0,0))
intersected with its reversal returns (0,0,0), the swapped call returns
(1,0,0), and the two points are not equal within the default tolerance. -/
theorem c5_line_line_symmetry_counterexample :
    Line.intersect_with_line ⟨⟨0, 0, 0⟩, ⟨1, 0, 0⟩⟩ ⟨⟨1, 0, 0⟩, ⟨0, 0, 0⟩⟩ false defaultTol =
      .ok [⟨0, 0, 0⟩] ∧
    Line.intersect_with_line ⟨⟨1, 0, 0⟩, ⟨0, 0, 0⟩⟩ ⟨⟨0, 0, 0⟩, ⟨1, 0, 0⟩⟩ false defaultTol =
      .ok [⟨1, 0, 0⟩] ∧
    ¬ (Point.mk 0 0 0).is_equal_to ⟨1, 0, 0⟩ defaultTol := by
  refine ⟨?_, ?_, not_pt_eq (by norm_num)⟩
  · simp only [Line.intersect_with_line]
    rw [if_pos (Or.inr (pt_eq_self _))]
  · simp only [Line.intersect_with_line]
    rw [if_pos (Or.inr (pt_eq_self _))]

theorem c5_line_line_symmetry_witness :
    ∃ p1 p2, [(⟨1, 0, 0⟩ : Point)] = [p1] ∧ [(⟨1, 0, 0⟩ : Point)] = [p2] ∧
      p1.is_equal_to p2 defaultTol :=
  c5_line_line_symmetry_amended ⟨⟨0, 0, 0⟩, ⟨2, 0, 0⟩⟩ ⟨⟨1, -1, 0⟩, ⟨1, 1, 0⟩⟩ false
    defaultTol (not_pt_eq (by norm_num)) (not_pt_eq (by norm_num))
    (not_pt_eq (by norm_num)) (not_pt_eq (by norm_num)) [⟨1, 0, 0⟩] [⟨1, 0, 0⟩]
    witI1 witI2

/-- Claim C6: quadratic_equation fails InvalidInput exactly when the leading
coefficient is within tol.calculation of zero; otherwise it snaps the
discriminant to zero within tol.calculation, fails MustBeNoNegative when the
snapped discriminant is negative, and otherwise returns both quadratic-formula
roots; in particular a = 1, b = -9.3, c = -262.3 yields the roots 21.5 and
-12.2, a = 0 yields InvalidInput, and a = 23.2, b = 18.5, c = 97.6 yields
MustBeNoNegative. -/
theorem c6_quadratic_equation :
    (∀ a b c : ℝ, ∀ tol : Tolerance,
      (|a| ≤ tol.calculation → quadratic_equation a b c tol = .error .InvalidInput) ∧
      (¬ |a| ≤ tol.calculation →
        ((|b * b - 4 * a * c| ≤ tol.calculation →
            quadratic_equation a b c tol = .ok (-b / (2 * a), -b / (2 * a))) ∧
         (¬ |b * b - 4 * a * c| ≤ tol.calculation → b * b - 4 * a * c < 0 →
            quadratic_equation a b c tol = .error .MustBeNoNegative) ∧
         (¬ |b * b - 4 * a * c| ≤ tol.calculation → 0 ≤ b * b - 4 * a * c →
            quadratic_equation a b c tol =
              .ok ((-b + Real.sqrt (b * b - 4 * a * c)) / (2 * a),
                   (-b - Real.sqrt (b * b - 4 * a * c)) / (2 * a)))))) ∧
    quadratic_equation 1 (-(93 / 10)) (-(2623 / 10)) defaultTol = .ok (43 / 2, -(61 / 5)) ∧
    (∀ b c : ℝ, quadratic_equation 0 b c defaultTol = .error .InvalidInput) ∧
    quadratic_equation (116 / 5) (37 / 2) (488 / 5) defaultTol =
      .error .MustBeNoNegative :=
  ⟨quadratic_equation_cases, c6_inst1, c6_inst2, c6_inst3⟩

/-- Claim C7: Arc::intersect_with_circle_in_local classifies by the center
distance: InvalidInput for coincident centers, NotImplemented for any of the
three tangency conditions, InvalidInput when the circles are fully separate,
and InvalidInput when one circle nests strictly inside the other without
tangency. -/
theorem c7_circle_circle_classification :
    ∀ (a : Arc) (c2 : Point) (r2 : ℝ) (tol : Tolerance),
      (a.center_point.is_equal_to c2 tol →
        a.intersect_with_circle_in_local c2 r2 tol = .error .InvalidInput) ∧
      (¬ a.center_point.is_equal_to c2 tol →
        ((|a.center_point.distance_to c2 - a.radius - r2| < tol.equal_point ∨
          |a.radius - (a.center_point.distance_to c2 + r2)| < tol.equal_point ∨
          |r2 - (a.center_point.distance_to c2 + a.radius)| < tol.equal_point) →
            a.intersect_with_circle_in_local c2 r2 tol = .error .NotImplemented) ∧
        (¬ (|a.center_point.distance_to c2 - a.radius - r2| < tol.equal_point ∨
            |a.radius - (a.center_point.distance_to c2 + r2)| < tol.equal_point ∨
            |r2 - (a.center_point.distance_to c2 + a.radius)| < tol.equal_point) →
          (0 < a.center_point.distance_to c2 - a.radius - r2 →
            a.intersect_with_circle_in_local c2 r2 tol = .error .InvalidInput) ∧
          (¬ 0 < a.center_point.distance_to c2 - a.radius - r2 →
            (|a.radius - r2| > tol.equal_point ∧
              ((a.radius > r2 ∧ a.radius > r2 + a.center_point.distance_to c2) ∨
               (r2 > a.radius ∧ r2 > a.radius + a.center_point.distance_to c2))) →
            a.intersect_with_circle_in_local c2 r2 tol = .error .InvalidInput))) := by
  intro a c2 r2 tol
  constructor
  · intro h
    simp only [Arc.intersect_with_circle_in_local, if_pos h]
  · intro h
    refine ⟨?_, ?_⟩
    · intro ht
      simp only [Arc.intersect_with_circle_in_local]
      rw [if_neg h, if_pos ht]
    · intro ht
      constructor
      · intro hsep
        simp only [Arc.intersect_with_circle_in_local]
        rw [if_neg h, if_neg ht, if_pos hsep]
      · intro hsep hnest
        simp only [Arc.intersect_with_circle_in_local]
        rw [if_neg h, if_neg ht, if_neg hsep, if_pos hnest]

theorem c7_circle_circle_classification_witness :
    Arc.intersect_with_circle_in_local
      ⟨Point.origin, ⟨1, 0, 0⟩, ⟨0, 1, 0⟩, 5, 0, 2 * Real.pi⟩ ⟨10, 0, 0⟩ 5 defaultTol =
      .error .NotImplemented := by
  have hd : Point.distance_to
      (Arc.mk Point.origin ⟨1, 0, 0⟩ ⟨0, 1, 0⟩ 5 0 (2 * Real.pi)).center_point
      ⟨10, 0, 0⟩ = 10 := by
    show Point.distance_to Point.origin ⟨10, 0, 0⟩ = 10
    simp only [Point.distance_to, Point.origin]
    refine sqrt_val (by norm_num) ?_
    norm_num
  have h := (c7_circle_circle_classification
    ⟨Point.origin, ⟨1, 0, 0⟩, ⟨0, 1, 0⟩, 5, 0, 2 * Real.pi⟩ ⟨10, 0, 0⟩ 5 defaultTol).2
    (not_pt_eq (by norm_num [Point.origin]))
  refine h.1 (Or.inl ?_)
  rw [hd]
  rw [defaultTol_ep]
  norm_num

/-- Claim C8: for the semicircle centered at the origin with radius 5 and
angular range from 0 to pi, Arc::intersect_with_line with the chord line
y = 3 and extends = true returns exactly the points (4,3,0) and (-4,3,0),
and with the chord line y = -3 and extends = false, whose intersections with
the full circle lie entirely outside the angular range, it fails
InvalidInput. -/
theorem c8_semicircle_line_scenarios :
    Arc.intersect_with_line ⟨Point.origin, ⟨1, 0, 0⟩, ⟨0, 1, 0⟩, 5, 0, Real.pi⟩
        ⟨⟨-10, 3, 0⟩, ⟨10, 3, 0⟩⟩ true defaultTol = .ok [⟨4, 3, 0⟩, ⟨-4, 3, 0⟩] ∧
    Arc.intersect_with_line ⟨Point.origin, ⟨1, 0, 0⟩, ⟨0, 1, 0⟩, 5, 0, Real.pi⟩
        ⟨⟨-10, -3, 0⟩, ⟨10, -3, 0⟩⟩ false defaultTol = .error .InvalidInput :=
  ⟨c8help_two, c8help_err⟩

/-- Claim C9, amended: for an arc with orthonormal axes and nonnegative
radius, a tolerance with positive equal_point, and a query point whose
flattened local projection is at least the default vector tolerance away
from the local origin, a successful Arc::closest_point yields a point the
arc contains. (The original unconditional claim is refuted by
c9_arc_contains_closest_point_counterexample: a query whose local
projection is shorter than the vector tolerance is scaled, not normalized,
by Vector::normal, and the resulting closest point lies off the circle.) -/
theorem c9_arc_contains_closest_point_amended (a : Arc) (p : Point) (tol : Tolerance)
    (hu : a.x_axis.inner_product a.x_axis = 1)
    (hv : a.y_axis.inner_product a.y_axis = 1)
    (huv : a.x_axis.inner_product a.y_axis = 0)
    (hr : 0 ≤ a.radius)
    (hep : 0 < tol.equal_point)
    (hlp : defaultTol.equal_vector ≤ Vector.length
      ⟨(p.transform (Matrix3d.transform_to_local a.center_point a.x_axis a.y_axis tol)).x,
       (p.transform (Matrix3d.transform_to_local a.center_point a.x_axis a.y_axis tol)).y,
       0⟩)
    (cp : Point) (hcp : a.closest_point p false tol = .ok cp) :
    a.contains cp false tol := by
  set Ml := Matrix3d.transform_to_local a.center_point a.x_axis a.y_axis tol with hMl
  set Mw := Matrix3d.transform_to_world a.center_point a.x_axis a.y_axis tol with hMw
  set q := p.transform Ml with hq
  set lp : Point := ⟨q.x, q.y, 0⟩ with hlpdef
  by_cases hA : |a.radius| < tol.equal_point
  · have hpad : Line.point_at_dist ⟨Point.origin, lp⟩ a.radius true tol =
        .ok Point.origin := by
      simp only [Line.point_at_dist]
      rw [if_pos hA]
    by_cases hinr : a.is_param_in_range (Arc.calc_angle_at_local_point Point.origin) tol
    · have heval := cp_eval_world a p tol Point.origin hpad hinr
      rw [heval] at hcp
      injection hcp with hcp'
      subst hcp'
      refine contains_of_closest_eq a _ tol hep ?_
      have hpad2 : Line.point_at_dist
          ⟨Point.origin,
            ⟨((Point.origin.transform Mw).transform Ml).x,
             ((Point.origin.transform Mw).transform Ml).y, 0⟩⟩ a.radius true tol =
          .ok Point.origin := by
        simp only [Line.point_at_dist]
        rw [if_pos hA]
      exact cp_eval_world a _ tol Point.origin hpad2 hinr
    · by_cases hd : a.start_point.distance_to lp < a.end_point.distance_to lp
      · have heval := cp_eval_start a p tol Point.origin hpad hinr hd
        rw [heval] at hcp
        injection hcp with hcp'
        subst hcp'
        exact contains_of_endpoint a tol hep _ (Or.inl rfl)
      · have heval := cp_eval_end a p tol Point.origin hpad hinr hd
        rw [heval] at hcp
        injection hcp with hcp'
        subst hcp'
        exact contains_of_endpoint a tol hep _ (Or.inr rfl)
  · by_cases hB : |Line.length ⟨Point.origin, lp⟩ - a.radius| < tol.equal_point
    · have hpad : Line.point_at_dist ⟨Point.origin, lp⟩ a.radius true tol = .ok lp := by
        simp only [Line.point_at_dist]
        rw [if_neg hA, if_pos hB]
      by_cases hinr : a.is_param_in_range (Arc.calc_angle_at_local_point lp) tol
      · have heval := cp_eval_world a p tol lp hpad hinr
        rw [heval] at hcp
        injection hcp with hcp'
        subst hcp'
        refine contains_of_closest_eq a _ tol hep ?_
        have hround : (lp.transform Mw).transform Ml = lp :=
          transform_world_local a.center_point a.x_axis a.y_axis tol lp hu hv huv
        have hpad2 : Line.point_at_dist
            ⟨Point.origin, ⟨((lp.transform Mw).transform Ml).x,
              ((lp.transform Mw).transform Ml).y, 0⟩⟩ a.radius true tol = .ok lp := by
          rw [hround]
          exact hpad
        exact cp_eval_world a _ tol lp hpad2 hinr
      · by_cases hd : a.start_point.distance_to lp < a.end_point.distance_to lp
        · have heval := cp_eval_start a p tol lp hpad hinr hd
          rw [heval] at hcp
          injection hcp with hcp'
          subst hcp'
          exact contains_of_endpoint a tol hep _ (Or.inl rfl)
        · have heval := cp_eval_end a p tol lp hpad hinr hd
          rw [heval] at hcp
          injection hcp with hcp'
          subst hcp'
          exact contains_of_endpoint a tol hep _ (Or.inr rfl)
    · have hr0 : 0 < a.radius := by
        rcases lt_or_eq_of_le hr with h0 | h0
        · exact h0
        · exact absurd (show |a.radius| < tol.equal_point from by
            rw [← h0, abs_zero]; exact hep) hA
      have hn0 : 0 < Vector.length ⟨q.x, q.y, 0⟩ :=
        lt_of_lt_of_le (by norm_num [defaultTol] : (0 : ℝ) < defaultTol.equal_vector) hlp
      have hdir : Line.direction ⟨Point.origin, lp⟩ =
          ⟨q.x / Vector.length ⟨q.x, q.y, 0⟩, q.y / Vector.length ⟨q.x, q.y, 0⟩, 0⟩ :=
        dir_origin q.x q.y hlp
      set n := Vector.length ⟨q.x, q.y, 0⟩ with hn
      have hnn : n * n = q.x * q.x + q.y * q.y + 0 * 0 := by
        rw [hn]
        simp only [Vector.length]
        exact Real.mul_self_sqrt (by nlinarith [mul_self_nonneg q.x, mul_self_nonneg q.y])
      have hpad : Line.point_at_dist ⟨Point.origin, lp⟩ a.radius true tol =
          .ok ⟨q.x / n * a.radius, q.y / n * a.radius, 0⟩ := by
        simp only [Line.point_at_dist]
        rw [if_neg hA, if_neg hB]
        rw [if_neg (show ¬ (true = false ∧ (a.radius < 0 ∨
          Line.length ⟨Point.origin, lp⟩ < a.radius)) from fun hcon => nomatch hcon.1)]
        rw [hdir]
        simp only [Point.addVec, Vector.smul, Point.origin]
        norm_num
      have hlen2 : Vector.length ⟨q.x / n * a.radius, q.y / n * a.radius, 0⟩ = a.radius :=
        vlen_scaled q.x q.y a.radius n hr hn0 hnn
      by_cases hinr : a.is_param_in_range (Arc.calc_angle_at_local_point
        ⟨q.x / n * a.radius, q.y / n * a.radius, 0⟩) tol
      · have heval := cp_eval_world a p tol _ hpad hinr
        rw [heval] at hcp
        injection hcp with hcp'
        subst hcp'
        refine contains_of_closest_eq a _ tol hep ?_
        have hround : ((⟨q.x / n * a.radius, q.y / n * a.radius, 0⟩ : Point).transform
            Mw).transform Ml = ⟨q.x / n * a.radius, q.y / n * a.radius, 0⟩ :=
          transform_world_local a.center_point a.x_axis a.y_axis tol _ hu hv huv
        have hpad2 : Line.point_at_dist
            ⟨Point.origin,
              ⟨(((⟨q.x / n * a.radius, q.y / n * a.radius, 0⟩ : Point).transform
                  Mw).transform Ml).x,
               (((⟨q.x / n * a.radius, q.y / n * a.radius, 0⟩ : Point).transform
                  Mw).transform Ml).y, 0⟩⟩ a.radius true tol =
            .ok ⟨q.x / n * a.radius, q.y / n * a.radius, 0⟩ := by
          rw [hround]
          show Line.point_at_dist
            ⟨Point.origin, ⟨q.x / n * a.radius, q.y / n * a.radius, 0⟩⟩ a.radius true tol = _
          simp only [Line.point_at_dist]
          rw [if_neg hA]
          rw [if_pos (show |Line.length ⟨Point.origin,
              ⟨q.x / n * a.radius, q.y / n * a.radius, 0⟩⟩ - a.radius| < tol.equal_point from by
            rw [len_origin, hlen2, sub_self, abs_zero]; exact hep)]
        exact cp_eval_world a _ tol _ hpad2 hinr
      · by_cases hd : a.start_point.distance_to lp < a.end_point.distance_to lp
        · have heval := cp_eval_start a p tol _ hpad hinr hd
          rw [heval] at hcp
          injection hcp with hcp'
          subst hcp'
          exact contains_of_endpoint a tol hep _ (Or.inl rfl)
        · have heval := cp_eval_end a p tol _ hpad hinr hd
          rw [heval] at hcp
          injection hcp with hcp'
          subst hcp'
          exact contains_of_endpoint a tol hep _ (Or.inr rfl)

/-- Counterexample to the literal claim C9: for the full circle of radius 10
about the origin and the query point (5.0e-7, 0, 0), closest_point succeeds
with (5.0e-6, 0, 0) - the degenerate direction is scaled by the radius
instead of normalized - and the arc does not contain that point. -/
theorem c9_arc_contains_closest_point_counterexample :
    Arc.closest_point ⟨Point.origin, ⟨1, 0, 0⟩, ⟨0, 1, 0⟩, 10, 0, 2 * Real.pi⟩
      ⟨1 / 2000000, 0, 0⟩ false defaultTol = .ok ⟨1 / 200000, 0, 0⟩ ∧
    ¬ Arc.contains ⟨Point.origin, ⟨1, 0, 0⟩, ⟨0, 1, 0⟩, 10, 0, 2 * Real.pi⟩
      ⟨1 / 200000, 0, 0⟩ false defaultTol := by
  refine ⟨closest9a, ?_⟩
  intro hcon
  rcases hcon with h | h | h
  · rw [startpt9] at h
    exact not_pt_eq (by norm_num) h
  · rw [endpt9] at h
    exact not_pt_eq (by norm_num) h
  · rw [closest9b] at h
    exact not_pt_eq (by norm_num) h

theorem c9_arc_contains_closest_point_witness :
    Arc.closest_point ⟨Point.origin, ⟨1, 0, 0⟩, ⟨0, 1, 0⟩, 5, 0, 2 * Real.pi⟩ ⟨7, 0, 0⟩
        false defaultTol = .ok ⟨5, 0, 0⟩ ∧
    Arc.contains ⟨Point.origin, ⟨1, 0, 0⟩, ⟨0, 1, 0⟩, 5, 0, 2 * Real.pi⟩ ⟨5, 0, 0⟩
        false defaultTol :=
  ⟨c9w_closest,
    c9_arc_contains_closest_point_amended
      ⟨Point.origin, ⟨1, 0, 0⟩, ⟨0, 1, 0⟩, 5, 0, 2 * Real.pi⟩ ⟨7, 0, 0⟩ defaultTol
      (by norm_num [Vector.inner_product]) (by norm_num [Vector.inner_product])
      (by norm_num [Vector.inner_product]) (by norm_num)
      (by rw [defaultTol_ep]; norm_num) c9w_hlp ⟨5, 0, 0⟩ c9w_closest⟩

/-- Claim C10: for every plane with a nonzero coefficient vector and every
point p, Plane::closest_point(p) lies on the plane for any nonnegative
tolerance, and the distance from p to that closest point equals
Plane::distance_to(p). -/
theorem c10_plane_queries_consistent :
    ∀ (pl : Plane) (p : Point) (tol : Tolerance),
      ¬ (pl.param_a = 0 ∧ pl.param_b = 0 ∧ pl.param_c = 0) → 0 ≤ tol.equal_point →
      pl.contains (pl.closest_point p) tol ∧
        p.distance_to (pl.closest_point p) = pl.distance_to p := by
  intro pl p tol hn ht
  obtain ⟨a, b, c, d⟩ := pl
  simp only at hn
  have hs2 : 0 < a ^ 2 + b ^ 2 + c ^ 2 := by
    rcases lt_or_eq_of_le (by positivity : (0 : ℝ) ≤ a ^ 2 + b ^ 2 + c ^ 2) with h | h
    · exact h
    · exact absurd ⟨by nlinarith [sq_nonneg a, sq_nonneg b, sq_nonneg c],
        by nlinarith [sq_nonneg a, sq_nonneg b, sq_nonneg c],
        by nlinarith [sq_nonneg a, sq_nonneg b, sq_nonneg c]⟩ hn
  have hsq : (0 : ℝ) < Real.sqrt (a ^ 2 + b ^ 2 + c ^ 2) := Real.sqrt_pos.mpr hs2
  simp only [Plane.contains, Plane.closest_point, Plane.distance_to, Point.distance_to]
  constructor
  · have h0 : (p.x + a * (-(a * p.x + b * p.y + c * p.z + d) / (a ^ 2 + b ^ 2 + c ^ 2))) * a +
        (p.y + b * (-(a * p.x + b * p.y + c * p.z + d) / (a ^ 2 + b ^ 2 + c ^ 2))) * b +
        (p.z + c * (-(a * p.x + b * p.y + c * p.z + d) / (a ^ 2 + b ^ 2 + c ^ 2))) * c + d = 0 := by
      field_simp
      ring
    rw [h0]
    simpa using ht
  · have harg : (p.x - (p.x + a * (-(a * p.x + b * p.y + c * p.z + d) /
          (a ^ 2 + b ^ 2 + c ^ 2)))) *
        (p.x - (p.x + a * (-(a * p.x + b * p.y + c * p.z + d) / (a ^ 2 + b ^ 2 + c ^ 2)))) +
        (p.y - (p.y + b * (-(a * p.x + b * p.y + c * p.z + d) / (a ^ 2 + b ^ 2 + c ^ 2)))) *
        (p.y - (p.y + b * (-(a * p.x + b * p.y + c * p.z + d) / (a ^ 2 + b ^ 2 + c ^ 2)))) +
        (p.z - (p.z + c * (-(a * p.x + b * p.y + c * p.z + d) / (a ^ 2 + b ^ 2 + c ^ 2)))) *
        (p.z - (p.z + c * (-(a * p.x + b * p.y + c * p.z + d) / (a ^ 2 + b ^ 2 + c ^ 2)))) =
        ((a * p.x + b * p.y + c * p.z + d) / (a ^ 2 + b ^ 2 + c ^ 2)) ^ 2 *
          (a ^ 2 + b ^ 2 + c ^ 2) := by
      field_simp
      ring
    rw [harg, Real.sqrt_mul (sq_nonneg _), Real.sqrt_sq_eq_abs, abs_div,
      abs_of_pos hs2]
    have he : p.x * a + p.y * b + p.z * c + d = a * p.x + b * p.y + c * p.z + d := by ring
    rw [he]
    rw [div_mul_eq_mul_div, eq_div_iff (ne_of_gt hsq)]
    rw [div_mul_eq_mul_div, mul_assoc, Real.mul_self_sqrt hs2.le]
    rw [mul_div_assoc, div_self (ne_of_gt hs2), mul_one]

theorem c10_plane_queries_consistent_witness :
    Plane.contains ⟨1, 2, 2, -3⟩ (Plane.closest_point ⟨1, 2, 2, -3⟩ ⟨0, 0, 0⟩)
        defaultTol ∧
    Point.distance_to ⟨0, 0, 0⟩ (Plane.closest_point ⟨1, 2, 2, -3⟩ ⟨0, 0, 0⟩) =
      Plane.distance_to ⟨1, 2, 2, -3⟩ ⟨0, 0, 0⟩ :=
  c10_plane_queries_consistent ⟨1, 2, 2, -3⟩ ⟨0, 0, 0⟩ defaultTol
    (fun h => absurd h.1 (by norm_num))
    (by rw [defaultTol_ep]; norm_num)

end Bgc
